import Mathlib

/-!
Shallow embedding of the noise-stream process supervision subsystem
(src/noise_runner.py, src/noise_manager.py, src/app.py).

Modelling conventions:
- Python strings are lists of characters (PyStr).
- The object heap for mutable StreamInfo records is explicit: the registry
  maps stream identifiers to heap references, and in-place mutation of a
  record is an update of its heap cell.  This mirrors Python reference
  semantics, which matters for aliasing of values returned by read
  operations.
- Wall-clock instants and file modification times are integers.
- The process backend (shutil.which, subprocess.Popen, poll) is an explicit
  environment parameter; a spawned process is a handle carrying a pid and a
  liveness flag (poll() is None exactly when alive).
- Fallible code returns Except; an .error result models a Python exception
  escaping the function.
-/

set_option linter.unusedVariables false

abbrev PyStr := List Char

def txt (s : String) : PyStr := s.toList

def lowerStr (s : PyStr) : PyStr := s.map Char.toLower

/-- StreamState enum from noise_manager.py. -/
inductive StreamState
  | stopped
  | starting
  | running
  | error
deriving DecidableEq, Repr

/-- The dict value strings of the StreamState enum. -/
def StreamState.value : StreamState → PyStr
  | .stopped => txt "stopped"
  | .starting => txt "starting"
  | .running => txt "running"
  | .error => txt "error"

/-- A spawned OS process as seen through subprocess.Popen: poll() is None
    exactly when alive is true; exitCode is what poll() returns once the
    process has died. -/
structure Proc where
  pid : Nat
  alive : Bool
  exitCode : Int
deriving DecidableEq, Repr

/-- Outcome of the subprocess.Popen call inside NoiseFFmpegRunner.start.
    The code catches FileNotFoundError and subprocess.SubprocessError; any
    other exception Popen can raise, such as PermissionError or another
    OSError subclass, matches neither except clause and propagates. -/
inductive SpawnOutcome
  | ok (pid : Nat)
  | fileNotFound
  | subprocessError
  | osError
deriving DecidableEq, Repr

/-- Environment one start attempt runs in: whether shutil.which finds the
    ffmpeg executable on the PATH, and how Popen behaves if it is reached. -/
structure SpawnEnv where
  ffmpegInPath : Bool
  outcome : SpawnOutcome
deriving DecidableEq, Repr

/-- NoiseFFmpegRunner state: the lock, logging and the stderr drain thread
    are elided; the mutable fields are the process handle and the most
    recent captured error line. -/
structure Runner where
  noiseType : PyStr
  process : Option Proc
  lastError : Option PyStr
deriving DecidableEq, Repr

/-- NoiseFFmpegRunner.__init__ : fresh runner with no process handle. -/
def Runner.mk0 (noise : PyStr) : Runner :=
  { noiseType := lowerStr noise, process := none, lastError := none }

/-- NoiseFFmpegRunner.is_running : a handle exists and poll() is None. -/
def Runner.isRunning (r : Runner) : Bool :=
  match r.process with
  | none => false
  | some p => p.alive

/-- NoiseFFmpegRunner.start.  Returns the updated runner and the boolean
    result; .error models an exception escaping to the caller (the only
    uncaught case is an OS error other than FileNotFoundError or
    SubprocessError from Popen). -/
def Runner.start (r : Runner) (env : SpawnEnv) : Except Unit (Runner × Bool) :=
  if r.isRunning then .ok (r, false)
  else if env.ffmpegInPath = false then .ok (r, false)
  else
    match env.outcome with
    | .ok pid => .ok ({ r with process := some ⟨pid, true, 0⟩, lastError := none }, true)
    | .fileNotFound => .ok (r, false)
    | .subprocessError => .ok (r, false)
    | .osError => .error ()

/-- NoiseFFmpegRunner.stop.  No handle: returns false.  Already exited:
    clears the handle and returns true.  Live: terminate, wait with a
    kill fallback, clear the handle and return true. -/
def Runner.stop (r : Runner) : Runner × Bool :=
  match r.process with
  | none => (r, false)
  | some p =>
    if p.alive = false then ({ r with process := none }, true)
    else ({ r with process := none }, true)

/-- NoiseFFmpegRunner.get_status : the three dict shapes the code returns. -/
inductive RunnerStatus
  | noProc
  | exited (exitCode : Int) (lastError : Option PyStr)
  | live (pid : Nat) (lastError : Option PyStr)
deriving DecidableEq, Repr

def Runner.getStatus (r : Runner) : RunnerStatus :=
  match r.process with
  | none => .noProc
  | some p => if p.alive then .live p.pid r.lastError else .exited p.exitCode r.lastError

/-- status.get of the running key (default False). -/
def RunnerStatus.runningB : RunnerStatus → Bool
  | .live _ _ => true
  | _ => false

/-- status.get of the pid key. -/
def RunnerStatus.pidOpt : RunnerStatus → Option Nat
  | .live pid _ => some pid
  | _ => none

/-- StreamInfo dataclass from noise_manager.py. -/
structure StreamInfo where
  streamId : PyStr
  noiseType : PyStr
  runner : Runner
  state : StreamState
  startedAt : Option Nat
  errorMessage : Option PyStr
  hlsPath : Option PyStr
deriving DecidableEq, Repr

/-- Path join with a slash, modelling pathlib / followed by str(). -/
def pjoin (a b : PyStr) : PyStr := a ++ ('/' :: b)

/-- What StreamInfo.health_check reads from disk and the clock: for a path,
    none means the manifest file does not exist, some none that it exists
    but stat raises OSError, and some (some t) that it exists with
    last-modified time t.  now is time.time(). -/
structure FsView where
  manifest : PyStr → Option (Option Int)
  now : Int

/-- The per-stream health dict built by StreamInfo.health_check. -/
structure HealthReport where
  streamId : PyStr
  noiseType : PyStr
  status : PyStr
  processRunning : Bool
  hlsAvailable : Bool
  manifestFresh : Bool
  error : Option PyStr
deriving DecidableEq, Repr

def sHealthy : PyStr := txt "healthy"
def sUnhealthy : PyStr := txt "unhealthy"
def sStopped : PyStr := txt "stopped"
def sStarting : PyStr := txt "starting"

def manifestName : PyStr := txt "stream.m3u8"

/-- The stat result for the manifest file the record points at, or none
    when the record has no hls path or the file does not exist. -/
def StreamInfo.manifestStat (s : StreamInfo) (fs : FsView) : Option (Option Int) :=
  match s.hlsPath with
  | none => none
  | some hp => fs.manifest (pjoin hp manifestName)

/-- StreamInfo.health_check from noise_manager.py. -/
def StreamInfo.healthCheck (s : StreamInfo) (fs : FsView) : HealthReport :=
  let isRunning := s.runner.getStatus.runningB
  let hlsAvailable := (s.manifestStat fs).isSome
  let manifestFresh :=
    match s.manifestStat fs with
    | some (some mtime) => decide (fs.now - mtime < 10)
    | _ => false
  let status :=
    if s.state = .running ∧ isRunning = true ∧ hlsAvailable = true ∧ manifestFresh = true then
      sHealthy
    else if s.state = .running ∧ isRunning = true ∧ hlsAvailable = true ∧ manifestFresh = false then
      sUnhealthy
    else if s.state = .stopped then sStopped
    else if s.state = .starting then sStarting
    else sUnhealthy
  { streamId := s.streamId, noiseType := s.noiseType, status := status,
    processRunning := isRunning, hlsAvailable := hlsAvailable,
    manifestFresh := manifestFresh, error := s.errorMessage }

def streamUrlOf (id : PyStr) : PyStr := txt "/hls/" ++ id ++ txt "/stream.m3u8"

/-- The dict built by StreamInfo.to_dict. -/
structure StreamDict where
  streamId : PyStr
  noiseType : PyStr
  state : PyStr
  running : Bool
  pid : Option Nat
  startedAt : Option Nat
  errorMessage : Option PyStr
  hlsPath : Option PyStr
  streamUrl : Option PyStr
deriving DecidableEq, Repr

/-- StreamInfo.to_dict from noise_manager.py. -/
def StreamInfo.toDict (s : StreamInfo) : StreamDict :=
  let rs := s.runner.getStatus
  { streamId := s.streamId, noiseType := s.noiseType, state := s.state.value,
    running := rs.runningB, pid := rs.pidOpt, startedAt := s.startedAt,
    errorMessage := s.errorMessage, hlsPath := s.hlsPath,
    streamUrl := if s.hlsPath.isSome then some (streamUrlOf s.streamId) else none }

/-- NoiseStreamManager state.  heap is the pool of StreamInfo objects ever
    allocated; streams is the insertion-ordered dict mapping a stream id to
    the heap reference of its record. -/
structure Mgr where
  baseHlsDir : PyStr
  noiseTypes : List PyStr
  heap : List StreamInfo
  streams : List (PyStr × Nat)
deriving Repr

/-- NoiseStreamManager.__init__ : noise types are lower-cased once here. -/
def Mgr.init (baseHlsDir : PyStr) (noiseTypes : List PyStr) : Mgr :=
  { baseHlsDir := baseHlsDir, noiseTypes := noiseTypes.map lowerStr,
    heap := [], streams := [] }

/-- Dict lookup on the insertion-ordered association list. -/
def alookup (k : PyStr) : List (PyStr × Nat) → Option Nat
  | [] => none
  | (k2, v) :: t => if k2 = k then some v else alookup k t

/-- Dict assignment: replace in place if the key is present, else append. -/
def ainsert (k : PyStr) (v : Nat) : List (PyStr × Nat) → List (PyStr × Nat)
  | [] => [(k, v)]
  | (k2, v2) :: t => if k2 = k then (k, v) :: t else (k2, v2) :: ainsert k v t

/-- Placeholder record returned when a heap reference is dangling; never
    reached for references produced by the registry operations. -/
def dummyStream : StreamInfo :=
  { streamId := [], noiseType := [], runner := Runner.mk0 [], state := .stopped,
    startedAt := none, errorMessage := none, hlsPath := none }

/-- Read the StreamInfo object a reference points at. -/
def Mgr.deref (m : Mgr) (ref : Nat) : StreamInfo := m.heap.getD ref dummyStream

/-- In-place mutation of the object a reference points at. -/
def Mgr.setRec (m : Mgr) (ref : Nat) (s : StreamInfo) : Mgr :=
  { m with heap := m.heap.set ref s }

/-- Allocation of a fresh StreamInfo object. -/
def Mgr.alloc (m : Mgr) (s : StreamInfo) : Mgr × Nat :=
  ({ m with heap := m.heap ++ [s] }, m.heap.length)

def noiseTag : PyStr := txt "noise_"

/-- The identifier scheme: fixed prefix followed by the noise parameter. -/
def mkStreamId (noise : PyStr) : PyStr := noiseTag ++ noise

/-- NoiseStreamManager._create_stream_for_noise : allocates a fresh
    StreamInfo with a fresh runner (directory creation elided).  Does not
    insert into the dict; callers do. -/
def Mgr.createStreamForNoise (m : Mgr) (noise : PyStr) : Mgr × Nat :=
  let id := mkStreamId noise
  let hlsDir := pjoin m.baseHlsDir id
  let s : StreamInfo :=
    { streamId := id, noiseType := noise, runner := Runner.mk0 noise,
      state := .stopped, startedAt := none, errorMessage := none,
      hlsPath := some hlsDir }
  m.alloc s

/-- The result dicts of start_stream and stop_stream: a success flag plus
    optional message, error and stream_url keys. -/
structure OpResult where
  success : Bool
  message : Option PyStr
  error : Option PyStr
  streamUrl : Option PyStr
deriving DecidableEq, Repr

def okMsg (msg : PyStr) : OpResult :=
  { success := true, message := some msg, error := none, streamUrl := none }

def errRes (e : PyStr) : OpResult :=
  { success := false, message := none, error := some e, streamUrl := none }

/-- NoiseStreamManager.stop_stream. -/
def Mgr.stopStream (m : Mgr) (id : PyStr) : Mgr × OpResult :=
  match alookup id m.streams with
  | none => (m, errRes (txt "Stream not found"))
  | some ref =>
    let s := m.deref ref
    if s.runner.isRunning = false then (m, okMsg (txt "Stream was not running"))
    else
      let (r2, ok) := s.runner.stop
      if ok then
        (m.setRec ref { s with runner := r2, state := .stopped, startedAt := none },
         okMsg (txt "Stream stopped"))
      else
        (m.setRec ref { s with runner := r2 }, errRes (txt "Failed to stop stream"))

def failStartMsg : PyStr := txt "Failed to start FFmpeg process"

/-- The tail of NoiseStreamManager.start_stream once the record (at ref) is
    in the dict: no-op if already live, else STARTING then RUNNING or ERROR
    according to the runner result. -/
def Mgr.startOn (m : Mgr) (ref : Nat) (id : PyStr) (env : SpawnEnv) (now : Nat) :
    Except Unit (Mgr × OpResult) :=
  let s := m.deref ref
  if s.runner.isRunning then .ok (m, okMsg (txt "Stream already running"))
  else
    let m1 := m.setRec ref { s with state := .starting }
    match s.runner.start env with
    | .error e => .error e
    | .ok (r2, true) =>
      .ok (m1.setRec ref
             { s with runner := r2, state := .running, startedAt := some now, errorMessage := none },
           { success := true, message := some (txt "Stream started"), error := none,
             streamUrl := some (streamUrlOf id) })
    | .ok (r2, false) =>
      .ok (m1.setRec ref
             { s with runner := r2, state := .error, errorMessage := some failStartMsg },
           errRes (txt "Failed to start stream"))

/-- NoiseStreamManager.start_stream, including the lazy-create path that
    decodes the noise parameter from the identifier. -/
def Mgr.startStream (m : Mgr) (id : PyStr) (env : SpawnEnv) (now : Nat) :
    Except Unit (Mgr × OpResult) :=
  match alookup id m.streams with
  | some ref => m.startOn ref id env now
  | none =>
    if (noiseTag.isPrefixOf id) = false then .ok (m, errRes (txt "Stream not found"))
    else
      let noise := id.drop noiseTag.length
      if noise ∈ m.noiseTypes then
        let (m1, ref) := m.createStreamForNoise noise
        let m2 := { m1 with streams := ainsert id ref m1.streams }
        m2.startOn ref id env now
      else .ok (m, errRes (txt "Invalid noise type"))

/-- One entry of the per-stream detail list of start_all_streams. -/
structure StartEntry where
  streamId : PyStr
  status : PyStr
  noise : PyStr
  streamUrl : Option PyStr
  error : Option PyStr
deriving DecidableEq, Repr

/-- The summary dict returned by start_all_streams. -/
structure StartSummary where
  success : Bool
  message : PyStr
  totalStreams : Nat
  started : Nat
  failed : Nat
  streams : List StartEntry
deriving DecidableEq, Repr

def natStr (n : Nat) : PyStr := (toString n).toList

def startSummaryMsg (st fl : Nat) : PyStr :=
  txt "Started " ++ natStr st ++ txt " streams, " ++ natStr fl ++ txt " failed"

/-- The loop body of NoiseStreamManager.start_all_streams over the
    configured noise types.  A record that exists with a live runner counts
    as already running (and toward started_count); otherwise a fresh record
    is created, started, and assigned into the dict. -/
def Mgr.startAllGo (envOf : PyStr → SpawnEnv) (now : Nat) :
    List PyStr → Mgr → List StartEntry → Nat → Nat →
    Except Unit (Mgr × List StartEntry × Nat × Nat)
  | [], m, acc, st, fl => .ok (m, acc, st, fl)
  | noise :: rest, m, acc, st, fl =>
    let id := mkStreamId noise
    let alreadyLive :=
      match alookup id m.streams with
      | some ref => (m.deref ref).runner.isRunning
      | none => false
    if alreadyLive then
      Mgr.startAllGo envOf now rest m
        (acc ++ [{ streamId := id, status := txt "already_running", noise := noise,
                   streamUrl := none, error := none }]) (st + 1) fl
    else
      let (m1, ref) := m.createStreamForNoise noise
      let s := m1.deref ref
      let m2 := m1.setRec ref { s with state := .starting }
      match s.runner.start (envOf noise) with
      | .error e => .error e
      | .ok (r2, true) =>
        let m3 := m2.setRec ref
          { s with runner := r2, state := .running, startedAt := some now, errorMessage := none }
        let m4 := { m3 with streams := ainsert id ref m3.streams }
        Mgr.startAllGo envOf now rest m4
          (acc ++ [{ streamId := id, status := txt "started", noise := noise,
                     streamUrl := some (streamUrlOf id), error := none }]) (st + 1) fl
      | .ok (r2, false) =>
        let m3 := m2.setRec ref
          { s with runner := r2, state := .error, errorMessage := some failStartMsg }
        let m4 := { m3 with streams := ainsert id ref m3.streams }
        Mgr.startAllGo envOf now rest m4
          (acc ++ [{ streamId := id, status := txt "failed", noise := noise,
                     streamUrl := none, error := some failStartMsg }]) st (fl + 1)

/-- NoiseStreamManager.start_all_streams. -/
def Mgr.startAllStreams (m : Mgr) (envOf : PyStr → SpawnEnv) (now : Nat) :
    Except Unit (Mgr × StartSummary) :=
  match Mgr.startAllGo envOf now m.noiseTypes m [] 0 0 with
  | .error e => .error e
  | .ok (m2, entries, st, fl) =>
    .ok (m2, { success := decide (st > 0), message := startSummaryMsg st fl,
               totalStreams := m.noiseTypes.length, started := st, failed := fl,
               streams := entries })

/-- One entry of the per-stream detail list of stop_all_streams. -/
structure StopEntry where
  streamId : PyStr
  status : PyStr
deriving DecidableEq, Repr

/-- The summary dict returned by stop_all_streams. -/
structure StopSummary where
  success : Bool
  message : PyStr
  stopped : Nat
  streams : List StopEntry
deriving DecidableEq, Repr

/-- The loop body of NoiseStreamManager.stop_all_streams over the dict
    entries (the dict itself is not mutated, only the records). -/
def Mgr.stopAllGo : List (PyStr × Nat) → Mgr → List StopEntry → Nat →
    Mgr × List StopEntry × Nat
  | [], m, acc, cnt => (m, acc, cnt)
  | (id, ref) :: rest, m, acc, cnt =>
    let s := m.deref ref
    if s.runner.isRunning then
      let (r2, ok) := s.runner.stop
      if ok then
        Mgr.stopAllGo rest
          (m.setRec ref { s with runner := r2, state := .stopped, startedAt := none })
          (acc ++ [{ streamId := id, status := txt "stopped" }]) (cnt + 1)
      else
        Mgr.stopAllGo rest (m.setRec ref { s with runner := r2 })
          (acc ++ [{ streamId := id, status := txt "failed_to_stop" }]) cnt
    else
      Mgr.stopAllGo rest m (acc ++ [{ streamId := id, status := txt "was_not_running" }]) cnt

/-- NoiseStreamManager.stop_all_streams. -/
def Mgr.stopAllStreams (m : Mgr) : Mgr × StopSummary :=
  let (m2, entries, cnt) := Mgr.stopAllGo m.streams m [] 0
  (m2, { success := true, message := txt "Stopped " ++ natStr cnt ++ txt " streams",
         stopped := cnt, streams := entries })

/-- The records of the registry in dict order. -/
def Mgr.records (m : Mgr) : List StreamInfo := m.streams.map (fun p => m.deref p.2)

/-- The dict returned by NoiseStreamManager.get_status. -/
structure StatusSummary where
  totalStreams : Nat
  runningStreams : Nat
  stoppedStreams : Nat
  streams : List StreamDict
deriving DecidableEq, Repr

/-- NoiseStreamManager.get_status : freshly built dicts of plain values. -/
def Mgr.getStatus (m : Mgr) : StatusSummary :=
  let rs := m.records
  let runningCount := rs.countP (fun s => s.runner.isRunning)
  { totalStreams := rs.length, runningStreams := runningCount,
    stoppedStreams := rs.length - runningCount,
    streams := rs.map StreamInfo.toDict }

/-- The dict returned by NoiseStreamManager.health_check. -/
structure HealthSummary where
  status : PyStr
  total : Nat
  healthy : Nat
  stopped : Nat
  unhealthy : Nat
  streams : List HealthReport
deriving DecidableEq, Repr

def sDegraded : PyStr := txt "degraded"
def sNoStreams : PyStr := txt "no_streams"
def sUnknown : PyStr := txt "unknown"

/-- NoiseStreamManager.health_check : per-stream reports plus the
    aggregate status computed from the three counters. -/
def Mgr.healthCheckAll (m : Mgr) (fs : FsView) : HealthSummary :=
  let reports := m.records.map (fun s => s.healthCheck fs)
  let healthyCount := reports.countP (fun h => decide (h.status = sHealthy))
  let stoppedCount := reports.countP (fun h => decide (h.status = sStopped))
  let unhealthyCount := reports.countP (fun h => decide (h.status = sUnhealthy))
  let overall :=
    if unhealthyCount > 0 then sDegraded
    else if healthyCount > 0 then sHealthy
    else if stoppedCount = reports.length ∧ stoppedCount > 0 then sStopped
    else if reports.length = 0 then sNoStreams
    else sUnknown
  { status := overall, total := reports.length, healthy := healthyCount,
    stopped := stoppedCount, unhealthy := unhealthyCount, streams := reports }

/-- NoiseStreamManager.get_stream : hands back the reference to the live
    record itself (the Python object), or none. -/
def Mgr.getStream (m : Mgr) (id : PyStr) : Option Nat := alookup id m.streams

/-- NoiseStreamManager.get_streams : dict(self._streams), a copy of the
    mapping whose values are the same record references. -/
def Mgr.getStreams (m : Mgr) : List (PyStr × Nat) := m.streams

/-- One registry call the monitor makes. -/
inductive MonAction
  | stopCall (id : PyStr)
  | startCall (id : PyStr)
deriving DecidableEq, Repr

/-- The restart condition of _monitor_stream_health in app.py. -/
def restartCond (h : HealthReport) : Bool :=
  decide (h.status = sUnhealthy) && h.processRunning

/-- The loop of one monitor cycle over the health report snapshot, issuing
    stop then start through the public registry operations and recording
    the calls made. -/
def monitorGo (envOf : PyStr → SpawnEnv) (now : Nat) :
    List HealthReport → Mgr → List MonAction → Except Unit (Mgr × List MonAction)
  | [], m, acc => .ok (m, acc)
  | h :: rest, m, acc =>
    if restartCond h then
      let m1 := (m.stopStream h.streamId).1
      match m1.startStream h.streamId (envOf h.streamId) now with
      | .error e => .error e
      | .ok (m2, _) =>
        monitorGo envOf now rest m2 (acc ++ [.stopCall h.streamId, .startCall h.streamId])
    else monitorGo envOf now rest m acc

/-- One evaluation cycle of _monitor_stream_health in app.py: take the
    health summary, then stop and start every stream reported unhealthy
    whose process is still live. -/
def monitorCycle (m : Mgr) (fs : FsView) (envOf : PyStr → SpawnEnv) (now : Nat) :
    Except Unit (Mgr × List MonAction) :=
  monitorGo envOf now (m.healthCheckAll fs).streams m []

/-! ### Basic lemmas about the runner -/

theorem runningB_getStatus (r : Runner) : r.getStatus.runningB = r.isRunning := by
  unfold Runner.getStatus Runner.isRunning
  cases r.process with
  | none => rfl
  | some p => cases hp : p.alive <;> simp [hp, RunnerStatus.runningB]

theorem Runner.stop_of_isRunning (r : Runner) (h : r.isRunning = true) :
    r.stop = ({ r with process := none }, true) := by
  unfold Runner.stop
  unfold Runner.isRunning at h
  cases hp : r.process with
  | none => rw [hp] at h; exact absurd h (by simp)
  | some p =>
    rw [hp] at h
    simp [h]

theorem Runner.start_false {r : Runner} {env : SpawnEnv} {r2 : Runner}
    (h : r.start env = .ok (r2, false)) : r2 = r := by
  unfold Runner.start at h
  split at h
  · simp_all
  · split at h
    · simp_all
    · split at h <;> simp_all

theorem Runner.start_true {r : Runner} {env : SpawnEnv} {r2 : Runner}
    (h : r.start env = .ok (r2, true)) :
    r2.isRunning = true ∧ r.isRunning = false := by
  unfold Runner.start at h
  split at h
  · simp_all
  · split at h
    · simp_all
    · split at h <;> simp_all [Runner.isRunning]
      rw [← h]

theorem Runner.start_ok {r : Runner} {env : SpawnEnv} (h : env.outcome ≠ .osError) :
    ∃ p, r.start env = .ok p := by
  unfold Runner.start
  split
  · exact ⟨(r, false), rfl⟩
  · split
    · exact ⟨(r, false), rfl⟩
    · cases henv : env.outcome
      case ok pid => exact ⟨_, rfl⟩
      case fileNotFound => exact ⟨(r, false), rfl⟩
      case subprocessError => exact ⟨(r, false), rfl⟩
      case osError => exact absurd henv h

/-! ### Basic lemmas about the heap and the dict -/

theorem Mgr.streams_setRec (m : Mgr) (ref : Nat) (s : StreamInfo) :
    (m.setRec ref s).streams = m.streams := rfl

theorem Mgr.heapLength_setRec (m : Mgr) (ref : Nat) (s : StreamInfo) :
    (m.setRec ref s).heap.length = m.heap.length := by
  simp [Mgr.setRec]

theorem Mgr.deref_setRec_self (m : Mgr) (ref : Nat) (s : StreamInfo)
    (h : ref < m.heap.length) : (m.setRec ref s).deref ref = s := by
  simp [Mgr.setRec, Mgr.deref, List.getD_eq_getElem?_getD, List.getElem?_set_self h]

theorem Mgr.deref_setRec_ne (m : Mgr) (ref : Nat) (s : StreamInfo) (ref2 : Nat)
    (h : ref2 ≠ ref) : (m.setRec ref s).deref ref2 = m.deref ref2 := by
  simp [Mgr.setRec, Mgr.deref, List.getD_eq_getElem?_getD,
    List.getElem?_set_ne (Ne.symm h)]

theorem Mgr.setRec_setRec (m : Mgr) (ref : Nat) (a b : StreamInfo) :
    (m.setRec ref a).setRec ref b = m.setRec ref b := by
  simp [Mgr.setRec, List.set_set]

theorem Mgr.setRec_oob (m : Mgr) (ref : Nat) (s : StreamInfo)
    (h : m.heap.length ≤ ref) : m.setRec ref s = m := by
  simp [Mgr.setRec, List.set_eq_of_length_le h]

theorem Mgr.alloc_streams (m : Mgr) (s : StreamInfo) : (m.alloc s).1.streams = m.streams := rfl

theorem Mgr.alloc_heapLength (m : Mgr) (s : StreamInfo) :
    (m.alloc s).1.heap.length = m.heap.length + 1 := by
  simp [Mgr.alloc]

theorem Mgr.deref_alloc_self (m : Mgr) (s : StreamInfo) :
    (m.alloc s).1.deref (m.alloc s).2 = s := by
  simp [Mgr.alloc, Mgr.deref, List.getD_eq_getElem?_getD, List.getElem?_concat_length]

theorem Mgr.deref_alloc_lt (m : Mgr) (s : StreamInfo) (ref : Nat)
    (h : ref < m.heap.length) : (m.alloc s).1.deref ref = m.deref ref := by
  simp [Mgr.alloc, Mgr.deref, List.getD_eq_getElem?_getD, List.getElem?_append_left h]

theorem alookup_ainsert_self (k : PyStr) (v : Nat) (l : List (PyStr × Nat)) :
    alookup k (ainsert k v l) = some v := by
  induction l with
  | nil => simp [ainsert, alookup]
  | cons p t ih =>
    obtain ⟨k2, v2⟩ := p
    by_cases hk : k2 = k
    · simp [ainsert, alookup, hk]
    · simp [ainsert, alookup, hk, ih]

theorem alookup_ainsert_ne (k : PyStr) (v : Nat) (l : List (PyStr × Nat)) (k3 : PyStr)
    (h : k3 ≠ k) : alookup k3 (ainsert k v l) = alookup k3 l := by
  induction l with
  | nil => simp [ainsert, alookup, Ne.symm h]
  | cons p t ih =>
    obtain ⟨k2, v2⟩ := p
    by_cases hk : k2 = k
    · subst hk
      simp [ainsert, alookup, Ne.symm h]
    · by_cases hk3 : k2 = k3
      · subst hk3
        simp [ainsert, alookup, h]
      · simp [ainsert, alookup, hk, hk3, ih]

theorem alookup_mem {k : PyStr} {l : List (PyStr × Nat)} {v : Nat}
    (h : alookup k l = some v) : (k, v) ∈ l := by
  induction l with
  | nil => simp [alookup] at h
  | cons p t ih =>
    obtain ⟨k2, v2⟩ := p
    by_cases hk : k2 = k
    · subst hk
      simp [alookup] at h
      subst h
      exact List.mem_cons_self _ _
    · simp only [alookup, if_neg hk] at h
      exact List.mem_cons_of_mem _ (ih h)

/-! ### The registry invariant maintained by completed operations -/

/-- What holds of every record at rest between completed registry
    operations: never left in STARTING, RUNNING exactly when the owned
    process is live, and ERROR always carries the fixed error message. -/
def RecordOk (s : StreamInfo) : Prop :=
  s.state ≠ .starting
  ∧ (s.state = .running ↔ s.runner.isRunning = true)
  ∧ (s.state = .error → s.errorMessage = some failStartMsg)

/-- Registry invariant: every dict entry points at a valid heap cell whose
    record satisfies RecordOk. -/
def MgrInv (m : Mgr) : Prop :=
  ∀ id ref, alookup id m.streams = some ref →
    ref < m.heap.length ∧ RecordOk (m.deref ref)

theorem inv_init (baseHlsDir : PyStr) (noiseTypes : List PyStr) :
    MgrInv (Mgr.init baseHlsDir noiseTypes) := by
  intro id ref h
  simp [Mgr.init, alookup] at h

theorem inv_setRec {m : Mgr} (ref : Nat) (s : StreamInfo)
    (hm : MgrInv m) (hs : RecordOk s) : MgrInv (m.setRec ref s) := by
  by_cases href : ref < m.heap.length
  · intro id ref2 h
    rw [Mgr.streams_setRec] at h
    obtain ⟨hlt, hok⟩ := hm id ref2 h
    refine ⟨by rwa [Mgr.heapLength_setRec], ?_⟩
    by_cases he : ref2 = ref
    · subst he
      rwa [Mgr.deref_setRec_self _ _ _ href]
    · rwa [Mgr.deref_setRec_ne _ _ _ _ he]
  · rwa [Mgr.setRec_oob _ _ _ (Nat.le_of_not_lt href)]

theorem inv_alloc {m : Mgr} (s : StreamInfo) (hm : MgrInv m) : MgrInv (m.alloc s).1 := by
  intro id ref h
  rw [Mgr.alloc_streams] at h
  obtain ⟨hlt, hok⟩ := hm id ref h
  refine ⟨?_, ?_⟩
  · rw [Mgr.alloc_heapLength]
    exact Nat.lt_succ_of_lt hlt
  · rwa [Mgr.deref_alloc_lt _ _ _ hlt]

theorem inv_insert {m : Mgr} (id : PyStr) (ref : Nat)
    (hm : MgrInv m) (hlt : ref < m.heap.length) (hok : RecordOk (m.deref ref)) :
    MgrInv { m with streams := ainsert id ref m.streams } := by
  intro id2 ref2 h
  simp only at h
  by_cases he : id2 = id
  · subst he
    rw [alookup_ainsert_self] at h
    obtain rfl := Option.some.inj h
    exact ⟨hlt, hok⟩
  · rw [alookup_ainsert_ne _ _ _ _ he] at h
    exact hm id2 ref2 h

/-- The record written by a successful stop is always well formed. -/
theorem recordOk_stopped (s : StreamInfo) (r2 : Runner) (h : r2.process = none) :
    RecordOk { s with runner := r2, state := .stopped, startedAt := none } := by
  refine ⟨by simp, ?_, by simp⟩
  simp [Runner.isRunning, h]

theorem inv_stopStream (m : Mgr) (id : PyStr) (hm : MgrInv m) :
    MgrInv (m.stopStream id).1 := by
  unfold Mgr.stopStream
  cases hl : alookup id m.streams with
  | none => exact hm
  | some ref =>
    simp only
    by_cases hrun : (m.deref ref).runner.isRunning = false
    · simp only [hrun, if_true]
      exact hm
    · rw [if_neg hrun]
      rw [Runner.stop_of_isRunning _ (by revert hrun; cases (m.deref ref).runner.isRunning <;> simp)]
      simp only
      exact inv_setRec _ _ hm (recordOk_stopped _ _ rfl)

/-- The record written by a successful spawn is well formed. -/
theorem recordOk_started (s : StreamInfo) (r2 : Runner) (now : Nat)
    (h : r2.isRunning = true) :
    RecordOk { s with runner := r2, state := .running, startedAt := some now, errorMessage := none } := by
  exact ⟨by simp, by simp [h], by simp⟩

/-- The record written by a failed spawn is well formed. -/
theorem recordOk_failed (s : StreamInfo) (r2 : Runner) (h : r2.isRunning = false) :
    RecordOk { s with runner := r2, state := .error, errorMessage := some failStartMsg } := by
  exact ⟨by simp, by simp [h], by simp⟩

theorem inv_startOn {m : Mgr} {ref : Nat} {id : PyStr} {env : SpawnEnv} {now : Nat}
    {m2 : Mgr} {r : OpResult}
    (hm : MgrInv m) (hlt : ref < m.heap.length)
    (h : m.startOn ref id env now = .ok (m2, r)) : MgrInv m2 := by
  simp only [Mgr.startOn] at h
  split at h
  · simp only [Except.ok.injEq, Prod.mk.injEq] at h
    obtain ⟨rfl, rfl⟩ := h
    exact hm
  · rename_i hrun
    split at h
    · exact absurd h (by simp)
    · rename_i r2 heq
      simp only [Except.ok.injEq, Prod.mk.injEq] at h
      obtain ⟨rfl, rfl⟩ := h
      rw [Mgr.setRec_setRec]
      exact inv_setRec _ _ hm (recordOk_started _ _ _ (Runner.start_true heq).1)
    · rename_i r2 heq
      simp only [Except.ok.injEq, Prod.mk.injEq] at h
      obtain ⟨rfl, rfl⟩ := h
      rw [Mgr.setRec_setRec]
      refine inv_setRec _ _ hm (recordOk_failed _ _ ?_)
      rw [Runner.start_false heq]
      simpa using hrun

/-- A freshly created record is well formed. -/
theorem recordOk_fresh (m : Mgr) (noise : PyStr) :
    RecordOk ((m.createStreamForNoise noise).1.deref (m.createStreamForNoise noise).2) := by
  unfold Mgr.createStreamForNoise
  rw [Mgr.deref_alloc_self]
  exact ⟨by simp, by simp [Runner.mk0, Runner.isRunning], by simp⟩

theorem create_ref_lt (m : Mgr) (noise : PyStr) :
    (m.createStreamForNoise noise).2 < (m.createStreamForNoise noise).1.heap.length := by
  unfold Mgr.createStreamForNoise Mgr.alloc
  simp

theorem inv_create_insert {m : Mgr} (noise id : PyStr) (hm : MgrInv m) :
    MgrInv { (m.createStreamForNoise noise).1 with
             streams := ainsert id (m.createStreamForNoise noise).2
                          (m.createStreamForNoise noise).1.streams } := by
  refine inv_insert _ _ ?_ (create_ref_lt m noise) (recordOk_fresh m noise)
  unfold Mgr.createStreamForNoise
  exact inv_alloc _ hm

theorem inv_startStream {m : Mgr} {id : PyStr} {env : SpawnEnv} {now : Nat}
    {m2 : Mgr} {r : OpResult}
    (hm : MgrInv m) (h : m.startStream id env now = .ok (m2, r)) : MgrInv m2 := by
  simp only [Mgr.startStream] at h
  split at h
  · rename_i ref hl
    exact inv_startOn hm (hm id ref hl).1 h
  · rename_i hl
    split at h
    · simp only [Except.ok.injEq, Prod.mk.injEq] at h
      obtain ⟨rfl, rfl⟩ := h
      exact hm
    · split at h
      · refine inv_startOn (inv_create_insert _ _ hm) ?_ h
        exact create_ref_lt m _
      · simp only [Except.ok.injEq, Prod.mk.injEq] at h
        obtain ⟨rfl, rfl⟩ := h
        exact hm

theorem create_runner_not_running (m : Mgr) (noise : PyStr) :
    ((m.createStreamForNoise noise).1.deref
      (m.createStreamForNoise noise).2).runner.isRunning = false := by
  unfold Mgr.createStreamForNoise
  rw [Mgr.deref_alloc_self]
  simp [Runner.mk0, Runner.isRunning]

theorem inv_startAllGo {envOf : PyStr → SpawnEnv} {now : Nat} (ns : List PyStr) :
    ∀ (m : Mgr) (acc : List StartEntry) (st fl : Nat) {m2 : Mgr}
      {es : List StartEntry} {st2 fl2 : Nat},
      MgrInv m → Mgr.startAllGo envOf now ns m acc st fl = .ok (m2, es, st2, fl2) →
      MgrInv m2 := by
  induction ns with
  | nil =>
    intro m acc st fl m2 es st2 fl2 hm h
    simp only [Mgr.startAllGo, Except.ok.injEq, Prod.mk.injEq] at h
    obtain ⟨rfl, rfl, rfl, rfl⟩ := h
    exact hm
  | cons noise rest ih =>
    intro m acc st fl m2 es st2 fl2 hm h
    simp only [Mgr.startAllGo] at h
    split at h
    · exact ih _ _ _ _ hm h
    · split at h
      · exact absurd h (by simp)
      · rename_i r2 heq
        refine ih _ _ _ _ ?_ h
        rw [Mgr.setRec_setRec]
        refine inv_insert _ _ ?_ ?_ ?_
        · refine inv_setRec _ _ ?_ (recordOk_started _ _ _ (Runner.start_true heq).1)
          unfold Mgr.createStreamForNoise
          exact inv_alloc _ hm
        · rw [Mgr.heapLength_setRec]
          exact create_ref_lt m noise
        · rw [Mgr.deref_setRec_self _ _ _ (create_ref_lt m noise)]
          exact recordOk_started _ _ _ (Runner.start_true heq).1
      · rename_i r2 heq
        have hr2 : r2.isRunning = false := by
          rw [Runner.start_false heq]
          exact create_runner_not_running m noise
        refine ih _ _ _ _ ?_ h
        rw [Mgr.setRec_setRec]
        refine inv_insert _ _ ?_ ?_ ?_
        · refine inv_setRec _ _ ?_ (recordOk_failed _ _ hr2)
          unfold Mgr.createStreamForNoise
          exact inv_alloc _ hm
        · rw [Mgr.heapLength_setRec]
          exact create_ref_lt m noise
        · rw [Mgr.deref_setRec_self _ _ _ (create_ref_lt m noise)]
          exact recordOk_failed _ _ hr2

theorem inv_startAllStreams {m : Mgr} {envOf : PyStr → SpawnEnv} {now : Nat}
    {m2 : Mgr} {sum : StartSummary}
    (hm : MgrInv m) (h : m.startAllStreams envOf now = .ok (m2, sum)) : MgrInv m2 := by
  simp only [Mgr.startAllStreams] at h
  split at h
  · exact absurd h (by simp)
  · rename_i m3 entries st fl heq
    simp only [Except.ok.injEq, Prod.mk.injEq] at h
    obtain ⟨rfl, rfl⟩ := h
    exact inv_startAllGo _ _ _ _ _ hm heq

theorem inv_stopAllGo (entries : List (PyStr × Nat)) :
    ∀ (m : Mgr) (acc : List StopEntry) (cnt : Nat),
      MgrInv m → MgrInv (Mgr.stopAllGo entries m acc cnt).1 := by
  induction entries with
  | nil =>
    intro m acc cnt hm
    exact hm
  | cons e rest ih =>
    intro m acc cnt hm
    obtain ⟨id, ref⟩ := e
    simp only [Mgr.stopAllGo]
    split
    · rename_i hrun
      rw [Runner.stop_of_isRunning _ hrun]
      simp only
      exact ih _ _ _ (inv_setRec _ _ hm (recordOk_stopped _ _ rfl))
    · exact ih _ _ _ hm

theorem inv_stopAllStreams {m : Mgr} (hm : MgrInv m) : MgrInv (m.stopAllStreams).1 := by
  unfold Mgr.stopAllStreams
  exact inv_stopAllGo _ _ _ _ hm

/-- The manager states reachable from construction through completed
    registry operations (the monitor uses the same public operations). -/
inductive ReachableOps : Mgr → Prop
  | init (baseHlsDir : PyStr) (noiseTypes : List PyStr) :
      ReachableOps (Mgr.init baseHlsDir noiseTypes)
  | startAll {m m2 : Mgr} {sum : StartSummary} (envOf : PyStr → SpawnEnv) (now : Nat) :
      ReachableOps m → m.startAllStreams envOf now = .ok (m2, sum) → ReachableOps m2
  | stopAll {m : Mgr} : ReachableOps m → ReachableOps (m.stopAllStreams).1
  | startOne {m m2 : Mgr} {r : OpResult} (id : PyStr) (env : SpawnEnv) (now : Nat) :
      ReachableOps m → m.startStream id env now = .ok (m2, r) → ReachableOps m2
  | stopOne {m : Mgr} (id : PyStr) : ReachableOps m → ReachableOps (m.stopStream id).1

/-- Every reachable registry state satisfies the record invariant. -/
theorem inv_of_reachable {m : Mgr} (h : ReachableOps m) : MgrInv m := by
  induction h with
  | init b ts => exact inv_init b ts
  | startAll envOf now hr heq ih => exact inv_startAllStreams ih heq
  | stopAll hr ih => exact inv_stopAllStreams ih
  | startOne id env now hr heq ih => exact inv_startStream ih heq
  | stopOne id hr ih => exact inv_stopStream _ _ ih

/-! ### Postconditions of start_stream -/

theorem startOn_streams {m : Mgr} {ref : Nat} {id : PyStr} {env : SpawnEnv} {now : Nat}
    {m2 : Mgr} {r : OpResult} (h : m.startOn ref id env now = .ok (m2, r)) :
    m2.streams = m.streams := by
  simp only [Mgr.startOn] at h
  split at h
  · simp only [Except.ok.injEq, Prod.mk.injEq] at h
    obtain ⟨rfl, rfl⟩ := h
    rfl
  · split at h
    · exact absurd h (by simp)
    · simp only [Except.ok.injEq, Prod.mk.injEq] at h
      obtain ⟨rfl, rfl⟩ := h
      rfl
    · simp only [Except.ok.injEq, Prod.mk.injEq] at h
      obtain ⟨rfl, rfl⟩ := h
      rfl

theorem startOn_post {m : Mgr} {ref : Nat} {id : PyStr} {env : SpawnEnv} {now : Nat}
    {m2 : Mgr} {r : OpResult}
    (hlt : ref < m.heap.length)
    (h : m.startOn ref id env now = .ok (m2, r)) :
    ((m2.deref ref).state = .running ∧ (m2.deref ref).runner.isRunning = true) ∨
    ((m2.deref ref).state = .error ∧ (m2.deref ref).errorMessage = some failStartMsg) ∨
    (m2 = m ∧ (m.deref ref).runner.isRunning = true) := by
  simp only [Mgr.startOn] at h
  split at h
  · rename_i hrun
    simp only [Except.ok.injEq, Prod.mk.injEq] at h
    obtain ⟨rfl, rfl⟩ := h
    exact Or.inr (Or.inr ⟨rfl, hrun⟩)
  · split at h
    · exact absurd h (by simp)
    · rename_i r2 heq
      simp only [Except.ok.injEq, Prod.mk.injEq] at h
      obtain ⟨rfl, rfl⟩ := h
      rw [Mgr.setRec_setRec, Mgr.deref_setRec_self _ _ _ hlt]
      exact Or.inl ⟨rfl, (Runner.start_true heq).1⟩
    · rename_i r2 heq
      simp only [Except.ok.injEq, Prod.mk.injEq] at h
      obtain ⟨rfl, rfl⟩ := h
      rw [Mgr.setRec_setRec, Mgr.deref_setRec_self _ _ _ hlt]
      exact Or.inr (Or.inl ⟨rfl, rfl⟩)

theorem mkStreamId_decode (p : PyStr) :
    noiseTag.isPrefixOf (mkStreamId p) = true ∧ (mkStreamId p).drop noiseTag.length = p := by
  constructor
  · rw [List.isPrefixOf_iff_prefix]
    exact List.prefix_append _ _
  · simp only [mkStreamId]
    exact List.drop_left _ _

theorem startStream_post {m : Mgr} {id : PyStr} {env : SpawnEnv} {now : Nat}
    {m2 : Mgr} {r : OpResult}
    (hm : MgrInv m) (h : m.startStream id env now = .ok (m2, r)) :
    ∀ ref, alookup id m2.streams = some ref →
      ((m2.deref ref).state = .running ∧ (m2.deref ref).runner.isRunning = true) ∨
      ((m2.deref ref).state = .error ∧ (m2.deref ref).errorMessage = some failStartMsg) := by
  intro ref href
  simp only [Mgr.startStream] at h
  split at h
  · rename_i ref0 hl
    have hstr := startOn_streams h
    rw [hstr, hl] at href
    obtain rfl := Option.some.inj href
    rcases startOn_post (hm id ref0 hl).1 h with hc | hc | ⟨rfl, hrun⟩
    · exact Or.inl hc
    · exact Or.inr hc
    · obtain ⟨_, hok⟩ := hm id ref0 hl
      exact Or.inl ⟨hok.2.1.mpr hrun, hrun⟩
  · rename_i hl
    split at h
    · simp only [Except.ok.injEq, Prod.mk.injEq] at h
      obtain ⟨rfl, rfl⟩ := h
      rw [hl] at href
      exact absurd href (by simp)
    · split at h
      · have hstr := startOn_streams h
        rw [hstr] at href
        simp only [alookup_ainsert_self, Option.some.injEq] at href
        subst href
        have hb : (m.createStreamForNoise (id.drop noiseTag.length)).2 <
            ({ (m.createStreamForNoise (id.drop noiseTag.length)).1 with
               streams := ainsert id (m.createStreamForNoise (id.drop noiseTag.length)).2
                 (m.createStreamForNoise (id.drop noiseTag.length)).1.streams } : Mgr).heap.length :=
          create_ref_lt m _
        rcases startOn_post hb h with hc | hc | ⟨rfl, hrun⟩
        · exact Or.inl hc
        · exact Or.inr hc
        · rw [show ({ (m.createStreamForNoise (id.drop noiseTag.length)).1 with
                streams := ainsert id (m.createStreamForNoise (id.drop noiseTag.length)).2
                  (m.createStreamForNoise (id.drop noiseTag.length)).1.streams } : Mgr).deref
                (m.createStreamForNoise (id.drop noiseTag.length)).2
              = (m.createStreamForNoise (id.drop noiseTag.length)).1.deref
                (m.createStreamForNoise (id.drop noiseTag.length)).2 from rfl] at hrun
          rw [create_runner_not_running m _] at hrun
          exact absurd hrun (by simp)
      · simp only [Except.ok.injEq, Prod.mk.injEq] at h
        obtain ⟨rfl, rfl⟩ := h
        rw [hl] at href
        exact absurd href (by simp)

theorem startStream_creates {m : Mgr} {p : PyStr} {env : SpawnEnv} {now : Nat}
    {m2 : Mgr} {r : OpResult}
    (hp : p ∈ m.noiseTypes) (h : m.startStream (mkStreamId p) env now = .ok (m2, r)) :
    ∃ ref, alookup (mkStreamId p) m2.streams = some ref := by
  simp only [Mgr.startStream] at h
  split at h
  · rename_i ref0 hl
    rw [startOn_streams h, hl]
    exact ⟨ref0, rfl⟩
  · rename_i hl
    split at h
    · rename_i hpre
      rw [(mkStreamId_decode p).1] at hpre
      exact absurd hpre (by simp)
    · split at h
      · rw [startOn_streams h]
        exact ⟨_, alookup_ainsert_self _ _ _⟩
      · rename_i hmem
        rw [(mkStreamId_decode p).2] at hmem
        exact absurd hp hmem

theorem recordOk_states (s : StreamInfo) (hok : RecordOk s) :
    s.state ≠ .starting ∧
    (s.runner.isRunning = false → s.state = .stopped ∨ s.state = .error) := by
  refine ⟨hok.1, fun hlive => ?_⟩
  cases hst : s.state with
  | stopped => exact Or.inl rfl
  | starting => exact absurd hst hok.1
  | running =>
    have := hok.2.1.mpr
    rw [hok.2.1] at hst
    rw [hst] at hlive
    exact absurd hlive (by simp)
  | error => exact Or.inr rfl

/-- C2: for every valid generation-parameter, after start(id) completes
    normally, get(id) observes state RUNNING with a live process or state
    ERROR with a non-empty error message; moreover, in the resulting
    registry state (reached through completed operations only) no record is
    left in STARTING, and records without a live process are exactly in
    STOPPED or ERROR. -/
theorem c2_start_get_postcondition (m : Mgr) (hm : ReachableOps m)
    (p : PyStr) (hp : p ∈ m.noiseTypes) (env : SpawnEnv) (now : Nat)
    (m2 : Mgr) (r : OpResult)
    (hstart : m.startStream (mkStreamId p) env now = .ok (m2, r)) :
    (∃ ref, m2.getStream (mkStreamId p) = some ref ∧
      (((m2.deref ref).state = .running ∧ (m2.deref ref).runner.isRunning = true) ∨
       ((m2.deref ref).state = .error ∧
         ∃ msg, (m2.deref ref).errorMessage = some msg ∧ msg ≠ [])))
    ∧ (∀ id ref, alookup id m2.streams = some ref →
        (m2.deref ref).state ≠ .starting ∧
        ((m2.deref ref).runner.isRunning = false →
          (m2.deref ref).state = .stopped ∨ (m2.deref ref).state = .error)) := by
  have hminv : MgrInv m := inv_of_reachable hm
  have hm2 : MgrInv m2 :=
    inv_of_reachable (ReachableOps.startOne _ _ _ hm hstart)
  constructor
  · obtain ⟨ref, href⟩ := startStream_creates hp hstart
    refine ⟨ref, href, ?_⟩
    rcases startStream_post hminv hstart ref href with hc | hc
    · exact Or.inl hc
    · exact Or.inr ⟨hc.1, failStartMsg, hc.2, by decide⟩
  · intro id ref href
    exact recordOk_states _ (hm2 id ref href).2

def c2m0 : Mgr := Mgr.init (txt "/app/hls") [txt "white"]

def c2res : Except Unit (Mgr × OpResult) :=
  c2m0.startStream (mkStreamId (txt "white")) ⟨true, .ok 42⟩ 7

def c2m1 : Mgr := match c2res with | .ok (m, _) => m | .error _ => c2m0

def c2r1 : OpResult := match c2res with | .ok (_, r) => r | .error _ => errRes []

/-- Witness for C2: the postcondition evaluated after a concrete
    successful start on a freshly initialised registry. -/
theorem c2_witness :
    (∃ ref, c2m1.getStream (mkStreamId (txt "white")) = some ref ∧
      (((c2m1.deref ref).state = .running ∧ (c2m1.deref ref).runner.isRunning = true) ∨
       ((c2m1.deref ref).state = .error ∧
         ∃ msg, (c2m1.deref ref).errorMessage = some msg ∧ msg ≠ [])))
    ∧ (∀ id ref, alookup id c2m1.streams = some ref →
        (c2m1.deref ref).state ≠ .starting ∧
        ((c2m1.deref ref).runner.isRunning = false →
          (c2m1.deref ref).state = .stopped ∨ (c2m1.deref ref).state = .error)) :=
  c2_start_get_postcondition c2m0 (ReachableOps.init _ _) (txt "white") (by decide)
    ⟨true, .ok 42⟩ 7 c2m1 c2r1 rfl

/-! ### C1: per-stream health classification -/

/-- The manifest freshness flag computed inside StreamInfo.health_check. -/
def manifestFreshB (s : StreamInfo) (fs : FsView) : Bool :=
  match s.manifestStat fs with
  | some (some mtime) => decide (fs.now - mtime < 10)
  | _ => false

theorem healthCheck_status_eq (s : StreamInfo) (fs : FsView) :
    (s.healthCheck fs).status =
      (if s.state = .running ∧ s.runner.isRunning = true ∧
          (s.manifestStat fs).isSome = true ∧ manifestFreshB s fs = true then sHealthy
       else if s.state = .running ∧ s.runner.isRunning = true ∧
          (s.manifestStat fs).isSome = true ∧ manifestFreshB s fs = false then sUnhealthy
       else if s.state = .stopped then sStopped
       else if s.state = .starting then sStarting
       else sUnhealthy) := by
  simp only [StreamInfo.healthCheck, manifestFreshB, runningB_getStatus]

theorem freshB_iff (s : StreamInfo) (fs : FsView) :
    ((s.manifestStat fs).isSome = true ∧ manifestFreshB s fs = true) ↔
      (∃ t, s.manifestStat fs = some (some t) ∧ fs.now - t < 10) := by
  cases hstat : s.manifestStat fs with
  | none => simp [manifestFreshB, hstat]
  | some o =>
    cases o with
    | none => simp [manifestFreshB, hstat]
    | some t => simp [manifestFreshB, hstat]

/-- C1: health classification is a pure function of state, process
    liveness, manifest existence and manifest age: healthy exactly when
    RUNNING, live, and the manifest exists with age strictly below 10;
    unhealthy when RUNNING and live but the manifest is stale or missing;
    stopped when STOPPED; starting when STARTING; and unhealthy whenever
    RUNNING without a live process. -/
theorem c1_health_classification (s : StreamInfo) (fs : FsView) :
    ((s.healthCheck fs).status = sHealthy ↔
      (s.state = .running ∧ s.runner.isRunning = true ∧
        ∃ t, s.manifestStat fs = some (some t) ∧ fs.now - t < 10))
    ∧ (s.state = .running → s.runner.isRunning = true →
        (¬ ∃ t, s.manifestStat fs = some (some t) ∧ fs.now - t < 10) →
        (s.healthCheck fs).status = sUnhealthy)
    ∧ (s.state = .stopped → (s.healthCheck fs).status = sStopped)
    ∧ (s.state = .starting → (s.healthCheck fs).status = sStarting)
    ∧ (s.state = .running → s.runner.isRunning = false →
        (s.healthCheck fs).status = sUnhealthy)
    ∧ (∀ (s2 : StreamInfo) (fs2 : FsView), s.state = s2.state →
        (s.healthCheck fs).processRunning = (s2.healthCheck fs2).processRunning →
        (s.healthCheck fs).hlsAvailable = (s2.healthCheck fs2).hlsAvailable →
        (s.healthCheck fs).manifestFresh = (s2.healthCheck fs2).manifestFresh →
        (s.healthCheck fs).status = (s2.healthCheck fs2).status) := by
  refine ⟨?_, ?_, ?_, ?_, ?_, ?_⟩
  · constructor
    · intro hh
      rw [healthCheck_status_eq] at hh
      split_ifs at hh with hc1 hc2 hc3 hc4
      · obtain ⟨ha, hb, hcc, hd⟩ := hc1
        exact ⟨ha, hb, (freshB_iff s fs).mp ⟨hcc, hd⟩⟩
      · exact absurd hh (by decide)
      · exact absurd hh (by decide)
      · exact absurd hh (by decide)
      · exact absurd hh (by decide)
    · rintro ⟨ha, hb, hex⟩
      obtain ⟨hcc, hd⟩ := (freshB_iff s fs).mpr hex
      rw [healthCheck_status_eq, if_pos ⟨ha, hb, hcc, hd⟩]
  · intro ha hb hnex
    have hnc : ¬((s.manifestStat fs).isSome = true ∧ manifestFreshB s fs = true) :=
      fun hcf => hnex ((freshB_iff s fs).mp hcf)
    rw [healthCheck_status_eq]
    rw [if_neg (by rintro ⟨_, _, hcc, hd⟩; exact hnc ⟨hcc, hd⟩)]
    by_cases havail : (s.manifestStat fs).isSome = true
    · have hfr : manifestFreshB s fs = false := by
        cases hfb : manifestFreshB s fs
        · rfl
        · exact absurd ⟨havail, hfb⟩ hnc
      rw [if_pos ⟨ha, hb, havail, hfr⟩]
    · rw [if_neg (by rintro ⟨_, _, hcc, _⟩; exact havail hcc)]
      simp only [ha]
      rw [if_neg (by decide), if_neg (by decide)]
  · intro hst
    rw [healthCheck_status_eq]
    simp only [hst]
    rw [if_neg (by rintro ⟨hx, _⟩; cases hx), if_neg (by rintro ⟨hx, _⟩; cases hx)]
    simp
  · intro hst
    rw [healthCheck_status_eq]
    simp only [hst]
    rw [if_neg (by rintro ⟨hx, _⟩; cases hx), if_neg (by rintro ⟨hx, _⟩; cases hx),
      if_neg (by decide)]
    simp
  · intro ha hb
    rw [healthCheck_status_eq]
    simp only [ha, hb]
    rw [if_neg (by rintro ⟨_, hx, _⟩; cases hx), if_neg (by rintro ⟨_, hx, _⟩; cases hx),
      if_neg (by decide), if_neg (by decide)]
  · intro s2 fs2 hst hpr hav hfr
    have e1 : s.runner.isRunning = s2.runner.isRunning := by
      rw [← runningB_getStatus, ← runningB_getStatus]
      exact hpr
    have e2 : (s.manifestStat fs).isSome = (s2.manifestStat fs2).isSome := hav
    have e3 : manifestFreshB s fs = manifestFreshB s2 fs2 := hfr
    rw [healthCheck_status_eq, healthCheck_status_eq, hst, e1, e2, e3]

def c1rec (st : StreamState) (alive : Bool) : StreamInfo :=
  { streamId := txt "noise_white", noiseType := txt "white",
    runner := { noiseType := txt "white", process := some ⟨9, alive, 0⟩, lastError := none },
    state := st, startedAt := some 0, errorMessage := none,
    hlsPath := some (txt "/app/hls/noise_white") }

def c1fs (mt : Option (Option Int)) : FsView :=
  { manifest := fun p => if p = pjoin (txt "/app/hls/noise_white") manifestName then mt else none,
    now := 20 }

/-- Witness for C1: concrete evaluations at age 3 (healthy), age 15
    (unhealthy), missing manifest (unhealthy), stopped, starting, and
    running-but-dead (unhealthy). -/
theorem c1_witness :
    ((c1rec .running true).healthCheck (c1fs (some (some 17)))).status = sHealthy
    ∧ ((c1rec .running true).healthCheck (c1fs (some (some 5)))).status = sUnhealthy
    ∧ ((c1rec .running true).healthCheck (c1fs none)).status = sUnhealthy
    ∧ ((c1rec .stopped true).healthCheck (c1fs (some (some 17)))).status = sStopped
    ∧ ((c1rec .starting true).healthCheck (c1fs (some (some 17)))).status = sStarting
    ∧ ((c1rec .running false).healthCheck (c1fs (some (some 17)))).status = sUnhealthy :=
  ⟨(c1_health_classification _ _).1.mpr ⟨rfl, rfl, 17, by decide, by decide⟩,
   (c1_health_classification _ _).2.1 rfl rfl (by
      rintro ⟨t, ht, hlt⟩
      rw [show (c1rec .running true).manifestStat (c1fs (some (some 5))) = some (some 5)
            from by decide] at ht
      obtain rfl : (5 : Int) = t := Option.some.inj (Option.some.inj ht)
      exact absurd hlt (by decide)),
   (c1_health_classification _ _).2.1 rfl rfl (by
      rintro ⟨t, ht, _⟩
      rw [show (c1rec .running true).manifestStat (c1fs none) = none from by decide] at ht
      cases ht),
   (c1_health_classification _ _).2.2.1 rfl,
   (c1_health_classification _ _).2.2.2.1 rfl,
   (c1_health_classification _ _).2.2.2.2.1 rfl rfl⟩

/-! ### C7: aggregate health status -/

/-- The aggregate rule exactly as the claim words it, with every-stream-
    stopped read over a nonempty set; the dedicated branch below it
    classifies an empty registry as no_streams. -/
def claimAggregate (statuses : List PyStr) : PyStr :=
  if statuses.any (fun st => decide (st = sUnhealthy)) then sDegraded
  else if statuses.any (fun st => decide (st = sHealthy)) then sHealthy
  else if statuses ≠ [] ∧ statuses.all (fun st => decide (st = sStopped)) then sStopped
  else if statuses = [] then sNoStreams
  else sUnknown

theorem aggregate_eq (reports : List HealthReport) :
    (if reports.countP (fun h => decide (h.status = sUnhealthy)) > 0 then sDegraded
     else if reports.countP (fun h => decide (h.status = sHealthy)) > 0 then sHealthy
     else if reports.countP (fun h => decide (h.status = sStopped)) = reports.length ∧
             reports.countP (fun h => decide (h.status = sStopped)) > 0 then sStopped
     else if reports.length = 0 then sNoStreams
     else sUnknown)
    = claimAggregate (reports.map HealthReport.status) := by
  unfold claimAggregate
  have h1 : ∀ X : PyStr,
      (((reports.map HealthReport.status).any (fun st => decide (st = X))) = true)
      ↔ 0 < reports.countP (fun h => decide (h.status = X)) := by
    intro X
    rw [List.any_eq_true, List.countP_pos_iff]
    constructor
    · rintro ⟨x, hx, hpx⟩
      obtain ⟨h, hh, rfl⟩ := List.mem_map.mp hx
      exact ⟨h, hh, hpx⟩
    · rintro ⟨h, hh, hp⟩
      exact ⟨h.status, List.mem_map_of_mem _ hh, hp⟩
  have h2 : (((reports.map HealthReport.status).all (fun st => decide (st = sStopped))) = true)
      ↔ reports.countP (fun h => decide (h.status = sStopped)) = reports.length := by
    rw [List.all_eq_true, List.countP_eq_length]
    constructor
    · intro hall h hh
      exact hall _ (List.mem_map_of_mem _ hh)
    · rintro hall st hst
      obtain ⟨h, hh, rfl⟩ := List.mem_map.mp hst
      exact hall h hh
  have hlenmap : (reports.map HealthReport.status).length = reports.length :=
    List.length_map _ _
  by_cases hu : 0 < reports.countP (fun h => decide (h.status = sUnhealthy))
  · rw [if_pos hu, if_pos ((h1 _).mpr hu)]
  · rw [if_neg hu, if_neg (fun hc => hu ((h1 _).mp hc))]
    by_cases hh : 0 < reports.countP (fun h => decide (h.status = sHealthy))
    · rw [if_pos hh, if_pos ((h1 _).mpr hh)]
    · rw [if_neg hh, if_neg (fun hc => hh ((h1 _).mp hc))]
      by_cases hs : reports.countP (fun h => decide (h.status = sStopped)) = reports.length ∧
          0 < reports.countP (fun h => decide (h.status = sStopped))
      · rw [if_pos hs]
        have hne : reports.map HealthReport.status ≠ [] := by
          intro hnil
          have : reports.length = 0 := by
            rw [← hlenmap, hnil]
            rfl
          omega
        rw [if_pos ⟨hne, h2.mpr hs.1⟩]
      · rw [if_neg hs]
        have hcneg : ¬(reports.map HealthReport.status ≠ [] ∧
            ((reports.map HealthReport.status).all (fun st => decide (st = sStopped))) = true) := by
          rintro ⟨hne, hall⟩
          have hlen0 : reports.length ≠ 0 := by
            intro h0
            apply hne
            rw [← List.length_eq_zero, hlenmap]
            exact h0
          have heq := h2.mp hall
          exact hs ⟨heq, by omega⟩
        rw [if_neg hcneg]
        by_cases he : reports.length = 0
        · rw [if_pos he]
          have : reports.map HealthReport.status = [] := by
            rw [← List.length_eq_zero, hlenmap]
            exact he
          rw [if_pos this]
        · rw [if_neg he]
          have : reports.map HealthReport.status ≠ [] := by
            intro hnil
            apply he
            rw [← hlenmap, hnil]
            rfl
          rw [if_neg this]

/-- C7: the aggregate health status is degraded when some stream is
    unhealthy; else healthy when some stream is healthy; else stopped when
    the streams are nonempty and all stopped; else no_streams when there
    are none; else unknown. -/
theorem c7_aggregate_status (m : Mgr) (fs : FsView) :
    (m.healthCheckAll fs).status =
      claimAggregate ((m.healthCheckAll fs).streams.map HealthReport.status) := by
  have h := aggregate_eq (m.records.map (fun s => s.healthCheck fs))
  exact h

/-! ### C5: failure containment of the runner start -/

def c5r0 : Runner := Runner.mk0 (txt "white")

/-- Counterexample for C5: with the executable found on the PATH and Popen
    raising an OS error that is neither FileNotFoundError nor
    SubprocessError (for example PermissionError), start() does not return
    false: the exception escapes to the caller, because the except clauses
    in NoiseFFmpegRunner.start only catch those two exception types. -/
theorem c5_counterexample :
    c5r0.start { ffmpegInPath := true, outcome := .osError } = .error () := rfl

/-- C5 (amended): start() returns false without raising when a previous
    process is already live, when the executable is absent from the search
    path, and when Popen fails with FileNotFoundError or SubprocessError;
    it raises only for another OS-level error from Popen. -/
theorem c5_start_failure_containment (r : Runner) (env : SpawnEnv) :
    (r.isRunning = true → r.start env = .ok (r, false))
    ∧ (env.ffmpegInPath = false → r.start env = .ok (r, false))
    ∧ (r.isRunning = false → env.ffmpegInPath = true → env.outcome = .fileNotFound →
        r.start env = .ok (r, false))
    ∧ (r.isRunning = false → env.ffmpegInPath = true → env.outcome = .subprocessError →
        r.start env = .ok (r, false))
    ∧ (env.outcome ≠ .osError → ∃ p, r.start env = .ok p) := by
  refine ⟨?_, ?_, ?_, ?_, Runner.start_ok⟩
  · intro h
    simp [Runner.start, h]
  · intro h
    by_cases hr : r.isRunning
    · simp [Runner.start, hr]
    · simp [Runner.start, hr, h]
  · intro h1 h2 h3
    simp [Runner.start, h1, h2, h3]
  · intro h1 h2 h3
    simp [Runner.start, h1, h2, h3]

def c5live : Runner := { noiseType := txt "white", process := some ⟨3, true, 0⟩, lastError := none }

/-- Witness for C5 (amended): all four contained failure modes evaluated
    concretely, plus a non-raising successful spawn. -/
theorem c5_witness :
    c5live.start { ffmpegInPath := true, outcome := .ok 9 } = .ok (c5live, false)
    ∧ c5r0.start { ffmpegInPath := false, outcome := .ok 9 } = .ok (c5r0, false)
    ∧ c5r0.start { ffmpegInPath := true, outcome := .fileNotFound } = .ok (c5r0, false)
    ∧ c5r0.start { ffmpegInPath := true, outcome := .subprocessError } = .ok (c5r0, false)
    ∧ ∃ p, c5r0.start { ffmpegInPath := true, outcome := .ok 9 } = .ok p :=
  ⟨(c5_start_failure_containment c5live _).1 rfl,
   (c5_start_failure_containment c5r0 _).2.1 rfl,
   (c5_start_failure_containment c5r0 _).2.2.1 rfl rfl rfl,
   (c5_start_failure_containment c5r0 _).2.2.2.1 rfl rfl rfl,
   (c5_start_failure_containment c5r0 _).2.2.2.2 (by decide)⟩

/-! ### C8: identifier scheme round trip -/

theorem startOn_preserves_ids {m : Mgr} {ref : Nat} {id : PyStr} {env : SpawnEnv}
    {now : Nat} {m2 : Mgr} {r : OpResult}
    (hlt : ref < m.heap.length)
    (h : m.startOn ref id env now = .ok (m2, r)) :
    (m2.deref ref).streamId = (m.deref ref).streamId ∧
    (m2.deref ref).noiseType = (m.deref ref).noiseType := by
  simp only [Mgr.startOn] at h
  split at h
  · simp only [Except.ok.injEq, Prod.mk.injEq] at h
    obtain ⟨rfl, rfl⟩ := h
    exact ⟨rfl, rfl⟩
  · split at h
    · exact absurd h (by simp)
    · simp only [Except.ok.injEq, Prod.mk.injEq] at h
      obtain ⟨rfl, rfl⟩ := h
      rw [Mgr.setRec_setRec, Mgr.deref_setRec_self _ _ _ hlt]
      exact ⟨rfl, rfl⟩
    · simp only [Except.ok.injEq, Prod.mk.injEq] at h
      obtain ⟨rfl, rfl⟩ := h
      rw [Mgr.setRec_setRec, Mgr.deref_setRec_self _ _ _ hlt]
      exact ⟨rfl, rfl⟩

theorem create_ids (m : Mgr) (noise : PyStr) :
    ((m.createStreamForNoise noise).1.deref (m.createStreamForNoise noise).2).streamId
      = mkStreamId noise ∧
    ((m.createStreamForNoise noise).1.deref (m.createStreamForNoise noise).2).noiseType
      = noise := by
  unfold Mgr.createStreamForNoise
  rw [Mgr.deref_alloc_self]
  exact ⟨rfl, rfl⟩

/-- C8: the identifier scheme round-trips: for a configured parameter p the
    identifier is the fixed prefix followed by p (the manager lower-cases
    parameters once at construction), decoding inverts encoding, start(id)
    on an unknown record with a valid identifier lazily creates a record
    carrying exactly the decoded parameter, and identifiers that do not
    decode to a known parameter fail with not-found or invalid-noise-type. -/
theorem c8_identifier_roundtrip :
    (∀ p : PyStr, noiseTag.isPrefixOf (mkStreamId p) = true ∧
       (mkStreamId p).drop noiseTag.length = p)
    ∧ (∀ (b : PyStr) (ts : List PyStr), (Mgr.init b ts).noiseTypes = ts.map lowerStr)
    ∧ (∀ (m : Mgr) (noise : PyStr),
        ((m.createStreamForNoise noise).1.deref (m.createStreamForNoise noise).2).streamId
          = mkStreamId noise)
    ∧ (∀ (m : Mgr) (p : PyStr) (env : SpawnEnv) (now : Nat) (m2 : Mgr) (r : OpResult),
        p ∈ m.noiseTypes → alookup (mkStreamId p) m.streams = none →
        m.startStream (mkStreamId p) env now = .ok (m2, r) →
        ∃ ref, alookup (mkStreamId p) m2.streams = some ref ∧
          (m2.deref ref).noiseType = p ∧ (m2.deref ref).streamId = mkStreamId p)
    ∧ (∀ (m : Mgr) (id : PyStr) (env : SpawnEnv) (now : Nat),
        alookup id m.streams = none →
        ((noiseTag.isPrefixOf id = false →
           m.startStream id env now = .ok (m, errRes (txt "Stream not found")))
         ∧ (noiseTag.isPrefixOf id = true → id.drop noiseTag.length ∉ m.noiseTypes →
           m.startStream id env now = .ok (m, errRes (txt "Invalid noise type"))))) := by
  refine ⟨mkStreamId_decode, fun b ts => rfl, fun m noise => (create_ids m noise).1, ?_, ?_⟩
  · intro m p env now m2 r hp hnone h
    simp only [Mgr.startStream, hnone] at h
    rw [(mkStreamId_decode p).1] at h
    simp only [Bool.true_eq_false, if_false] at h
    rw [(mkStreamId_decode p).2] at h
    rw [if_pos hp] at h
    have hb : (m.createStreamForNoise p).2 <
        ({ (m.createStreamForNoise p).1 with
           streams := ainsert (mkStreamId p) (m.createStreamForNoise p).2
             (m.createStreamForNoise p).1.streams } : Mgr).heap.length :=
      create_ref_lt m p
    obtain ⟨hid, hnt⟩ := startOn_preserves_ids hb h
    refine ⟨(m.createStreamForNoise p).2, ?_, ?_, ?_⟩
    · rw [startOn_streams h]
      exact alookup_ainsert_self _ _ _
    · rw [hnt]
      exact (create_ids m p).2
    · rw [hid]
      exact (create_ids m p).1
  · intro m id env now hnone
    constructor
    · intro hpre
      simp [Mgr.startStream, hnone, hpre]
    · intro hpre hmem
      simp [Mgr.startStream, hnone, hpre, hmem]

def c8m0 : Mgr := Mgr.init (txt "/h") [txt "white"]

def c8res : Except Unit (Mgr × OpResult) :=
  c8m0.startStream (mkStreamId (txt "white")) ⟨true, .ok 4⟩ 0

def c8m1 : Mgr := match c8res with | .ok (m, _) => m | .error _ => c8m0

def c8r1 : OpResult := match c8res with | .ok (_, r) => r | .error _ => errRes []

/-- Witness for C8: a concrete round trip, a concrete lazy creation, and
    the two concrete failure shapes for undecodable identifiers. -/
theorem c8_witness :
    (noiseTag.isPrefixOf (mkStreamId (txt "pink")) = true ∧
      (mkStreamId (txt "pink")).drop noiseTag.length = txt "pink")
    ∧ (∃ ref, alookup (mkStreamId (txt "white")) c8m1.streams = some ref ∧
        (c8m1.deref ref).noiseType = txt "white" ∧
        (c8m1.deref ref).streamId = mkStreamId (txt "white"))
    ∧ c8m0.startStream (txt "bogus") ⟨true, .ok 4⟩ 0
        = .ok (c8m0, errRes (txt "Stream not found"))
    ∧ c8m0.startStream (txt "noise_red") ⟨true, .ok 4⟩ 0
        = .ok (c8m0, errRes (txt "Invalid noise type")) :=
  ⟨(c8_identifier_roundtrip).1 (txt "pink"),
   (c8_identifier_roundtrip).2.2.2.1 c8m0 (txt "white") ⟨true, .ok 4⟩ 0 c8m1 c8r1
     (by decide) (by decide) rfl,
   ((c8_identifier_roundtrip).2.2.2.2 c8m0 (txt "bogus") ⟨true, .ok 4⟩ 0 (by decide)).1
     (by decide),
   ((c8_identifier_roundtrip).2.2.2.2 c8m0 (txt "noise_red") ⟨true, .ok 4⟩ 0 (by decide)).2
     (by decide) (by decide)⟩

/-! ### C10: ERROR records are unhealthy, degrade the aggregate, and are
    not restarted by the monitor -/

theorem healthCheckAll_degraded {m : Mgr} {fs : FsView}
    (h : ∃ rep ∈ m.records.map (fun s => s.healthCheck fs), rep.status = sUnhealthy) :
    (m.healthCheckAll fs).status = sDegraded := by
  have hpos : 0 < (m.records.map (fun s => s.healthCheck fs)).countP
      (fun h => decide (h.status = sUnhealthy)) := by
    rw [List.countP_pos_iff]
    obtain ⟨rep, hmem, hst⟩ := h
    exact ⟨rep, hmem, by simp [hst]⟩
  simp only [Mgr.healthCheckAll]
  rw [if_pos hpos]

/-- C10: every record in state ERROR is classified unhealthy by the
    per-stream health check via the catch-all branch, regardless of
    liveness and manifest state; one such record makes the aggregate
    degraded; and when its process is dead the monitor restart condition
    excludes it. -/
theorem c10_error_unhealthy_degraded_no_restart :
    (∀ (s : StreamInfo) (fs : FsView), s.state = .error →
       (s.healthCheck fs).status = sUnhealthy)
    ∧ (∀ (m : Mgr) (fs : FsView) (id : PyStr) (ref : Nat),
        alookup id m.streams = some ref → (m.deref ref).state = .error →
        (m.healthCheckAll fs).status = sDegraded)
    ∧ (∀ (s : StreamInfo) (fs : FsView), s.state = .error →
        s.runner.isRunning = false → restartCond (s.healthCheck fs) = false) := by
  have herr : ∀ (s : StreamInfo) (fs : FsView), s.state = .error →
      (s.healthCheck fs).status = sUnhealthy := by
    intro s fs hst
    rw [healthCheck_status_eq]
    simp only [hst]
    rw [if_neg (by rintro ⟨hx, _⟩; cases hx), if_neg (by rintro ⟨hx, _⟩; cases hx),
      if_neg (by decide), if_neg (by decide)]
  refine ⟨herr, ?_, ?_⟩
  · intro m fs id ref hl hst
    refine healthCheckAll_degraded ⟨(m.deref ref).healthCheck fs, ?_, herr _ _ hst⟩
    refine List.mem_map_of_mem _ ?_
    refine List.mem_map.mpr ⟨(id, ref), alookup_mem hl, rfl⟩
  · intro s fs hst hrun
    have hpr : (s.healthCheck fs).processRunning = false := by
      show s.runner.getStatus.runningB = false
      rw [runningB_getStatus]
      exact hrun
    simp [restartCond, hpr]

def c10rec : StreamInfo :=
  { streamId := txt "noise_white", noiseType := txt "white",
    runner := Runner.mk0 (txt "white"), state := .error,
    startedAt := none, errorMessage := some failStartMsg,
    hlsPath := some (txt "/h/noise_white") }

def c10m : Mgr :=
  { baseHlsDir := txt "/h", noiseTypes := [txt "white"],
    heap := [c10rec], streams := [(txt "noise_white", 0)] }

def c10fs : FsView := { manifest := fun _ => none, now := 0 }

/-- Witness for C10: a registry holding one failed-spawn record evaluates
    to an unhealthy stream report, a degraded aggregate, and a false
    monitor restart condition. -/
theorem c10_witness :
    (c10rec.healthCheck c10fs).status = sUnhealthy
    ∧ (c10m.healthCheckAll c10fs).status = sDegraded
    ∧ restartCond (c10rec.healthCheck c10fs) = false :=
  ⟨(c10_error_unhealthy_degraded_no_restart).1 c10rec c10fs rfl,
   (c10_error_unhealthy_degraded_no_restart).2.1 c10m c10fs (txt "noise_white") 0 rfl rfl,
   (c10_error_unhealthy_degraded_no_restart).2.2 c10rec c10fs rfl rfl⟩

/-! ### C4: idempotence of stop -/

theorem Mgr.deref_oob (m : Mgr) (ref : Nat) (h : m.heap.length ≤ ref) :
    m.deref ref = dummyStream := by
  simp [Mgr.deref, List.getD_eq_getElem?_getD, List.getElem?_eq_none h]

theorem stopStream_noop {m : Mgr} {id : PyStr} {ref : Nat}
    (hl : alookup id m.streams = some ref)
    (hrun : (m.deref ref).runner.isRunning = false) :
    m.stopStream id = (m, okMsg (txt "Stream was not running")) := by
  simp [Mgr.stopStream, hl, hrun]

theorem stopStream_live {m : Mgr} {id : PyStr} {ref : Nat}
    (hl : alookup id m.streams = some ref)
    (hrun : (m.deref ref).runner.isRunning = true) :
    m.stopStream id =
      (m.setRec ref { m.deref ref with
         runner := { (m.deref ref).runner with process := none },
         state := .stopped, startedAt := none },
       okMsg (txt "Stream stopped")) := by
  simp only [Mgr.stopStream, hl]
  rw [if_neg (by simp [hrun])]
  rw [Runner.stop_of_isRunning _ hrun]
  simp

/-- C4 (amended): stop(id) is idempotent: after a successful stop(id) the
    second stop(id) succeeds as a no-op performing no state transition;
    and when the first stop terminated a live process, no process handle
    remains in the runner after either call.  (When the first successful
    stop was itself a no-op on a crashed process, a dead handle can
    remain; see the counterexample.) -/
theorem c4_stop_idempotent (m : Mgr) (id : PyStr) (m1 : Mgr) (r1 : OpResult)
    (h1 : m.stopStream id = (m1, r1)) (hs : r1.success = true) :
    m1.stopStream id = (m1, okMsg (txt "Stream was not running"))
    ∧ (∀ ref, alookup id m.streams = some ref →
        (m.deref ref).runner.isRunning = true →
        (m1.deref ref).runner.process = none ∧
        ((m1.stopStream id).1.deref ref).runner.process = none) := by
  rcases hl : alookup id m.streams with _ | ref0
  · rw [show m.stopStream id = (m, errRes (txt "Stream not found"))
        from by simp [Mgr.stopStream, hl]] at h1
    simp only [Prod.mk.injEq] at h1
    obtain ⟨rfl, rfl⟩ := h1
    exact absurd hs (by decide)
  · by_cases hrun : (m.deref ref0).runner.isRunning = true
    · have hlt : ref0 < m.heap.length := by
        by_contra hge
        rw [Mgr.deref_oob _ _ (Nat.le_of_not_lt hge)] at hrun
        exact absurd hrun (by decide)
      rw [stopStream_live hl hrun] at h1
      simp only [Prod.mk.injEq] at h1
      obtain ⟨h1a, h1b⟩ := h1
      have hl2 : alookup id m1.streams = some ref0 := by
        rw [← h1a, Mgr.streams_setRec]
        exact hl
      have hproc : (m1.deref ref0).runner.process = none := by
        rw [← h1a, Mgr.deref_setRec_self _ _ _ hlt]
      have hrun2 : (m1.deref ref0).runner.isRunning = false := by
        unfold Runner.isRunning
        rw [hproc]
      have hnoop := stopStream_noop hl2 hrun2
      refine ⟨hnoop, ?_⟩
      intro ref hlr hrunr
      obtain rfl := Option.some.inj hlr
      refine ⟨hproc, ?_⟩
      rw [hnoop]
      exact hproc
    · have hrunf : (m.deref ref0).runner.isRunning = false := by
        revert hrun
        cases (m.deref ref0).runner.isRunning <;> simp
      rw [stopStream_noop hl hrunf] at h1
      simp only [Prod.mk.injEq] at h1
      obtain ⟨rfl, rfl⟩ := h1
      refine ⟨stopStream_noop hl hrunf, ?_⟩
      intro ref hlr hrunr
      obtain rfl := Option.some.inj hlr
      rw [hrunr] at hrunf
      exact absurd hrunf (by decide)

def c4deadRec : StreamInfo :=
  { streamId := txt "noise_white", noiseType := txt "white",
    runner := { noiseType := txt "white", process := some ⟨7, false, 1⟩, lastError := none },
    state := .running, startedAt := some 0, errorMessage := none,
    hlsPath := some (txt "/h/noise_white") }

def c4m : Mgr :=
  { baseHlsDir := txt "/h", noiseTypes := [txt "white"], heap := [c4deadRec],
    streams := [(txt "noise_white", 0)] }

/-- Counterexample for C4: on a stream whose worker process exited on its
    own (poll() reports an exit code, so is_running is false), stop(id)
    succeeds as a no-op, but the runner still holds the dead process
    handle afterwards, and still does after a second stop: stop_stream
    short-circuits without calling NoiseFFmpegRunner.stop, which is the
    code that would clear the handle.  This falsifies the claim that after
    either call no process handle remains in the runner. -/
theorem c4_counterexample :
    (c4m.stopStream (txt "noise_white")).2.success = true
    ∧ ((c4m.stopStream (txt "noise_white")).1.deref 0).runner.process ≠ none
    ∧ (((c4m.stopStream (txt "noise_white")).1.stopStream
         (txt "noise_white")).1.deref 0).runner.process ≠ none := by
  decide

def c4liveRec : StreamInfo :=
  { streamId := txt "noise_white", noiseType := txt "white",
    runner := { noiseType := txt "white", process := some ⟨5, true, 0⟩, lastError := none },
    state := .running, startedAt := some 0, errorMessage := none,
    hlsPath := some (txt "/h/noise_white") }

def c4mLive : Mgr :=
  { baseHlsDir := txt "/h", noiseTypes := [txt "white"], heap := [c4liveRec],
    streams := [(txt "noise_white", 0)] }

def c4after : Mgr × OpResult := c4mLive.stopStream (txt "noise_white")

/-- Witness for C4 (amended): stopping a live stream, then stopping again,
    evaluated concretely. -/
theorem c4_witness :
    c4after.1.stopStream (txt "noise_white")
      = (c4after.1, okMsg (txt "Stream was not running"))
    ∧ ((c4after.1.deref 0).runner.process = none ∧
       ((c4after.1.stopStream (txt "noise_white")).1.deref 0).runner.process = none) :=
  have h := c4_stop_idempotent c4mLive (txt "noise_white") c4after.1 c4after.2 rfl (by decide)
  ⟨h.1, h.2 0 rfl rfl⟩

/-! ### C9: read operations and aliasing -/

def c9rec : StreamInfo :=
  { streamId := txt "noise_white", noiseType := txt "white",
    runner := Runner.mk0 (txt "white"), state := .stopped,
    startedAt := none, errorMessage := none, hlsPath := some (txt "/h/noise_white") }

def c9m : Mgr :=
  { baseHlsDir := txt "/h", noiseTypes := [txt "white"], heap := [c9rec],
    streams := [(txt "noise_white", 0)] }

def c9m2 : Mgr :=
  match c9m.startStream (txt "noise_white") { ffmpegInPath := false, outcome := .ok 0 } 0 with
  | .ok (m, _) => m
  | .error _ => c9m

/-- Counterexample for C9: get(id) hands back the live record object
    (modelled as heap reference 0), not an independent copy, and the
    mapping copy returned by list() holds that same reference.  A
    subsequent start_stream mutates the very object the earlier call
    returned: its state changes from STOPPED to ERROR after a failed
    spawn, so the structure that call already returned has changed. -/
theorem c9_counterexample :
    c9m.getStream (txt "noise_white") = some 0
    ∧ (txt "noise_white", 0) ∈ c9m.getStreams
    ∧ (c9m.deref 0).state = .stopped
    ∧ (c9m2.deref 0).state = .error
    ∧ c9m2.deref 0 ≠ c9m.deref 0 := by decide

/-- C9 (amended): get(id) returns the registry record itself and list()
    returns a mapping copy whose values are the same record references, so
    a later registry mutation (here a failed restart) is visible through
    the structure the read call already returned; in exchange,
    status_summary() and health_summary() build their results out of plain
    values only. -/
theorem c9_read_ops_aliasing (m : Mgr) (id : PyStr) (ref : Nat) (env : SpawnEnv)
    (now : Nat) (m2 : Mgr) (r : OpResult)
    (href : ref < m.heap.length)
    (hget : m.getStream id = some ref)
    (hrun : (m.deref ref).runner.isRunning = false)
    (henv : env.ffmpegInPath = false)
    (h : m.startStream id env now = .ok (m2, r)) :
    (id, ref) ∈ m.getStreams
    ∧ alookup id m2.streams = some ref
    ∧ (m2.deref ref).state = .error
    ∧ ((m.deref ref).state ≠ .error → m2.deref ref ≠ m.deref ref) := by
  have hget2 : alookup id m.streams = some ref := hget
  simp only [Mgr.startStream, hget2] at h
  simp only [Mgr.startOn] at h
  rw [if_neg (by simp [hrun])] at h
  have hst : (m.deref ref).runner.start env = .ok ((m.deref ref).runner, false) := by
    unfold Runner.start
    rw [if_neg (by simp [hrun]), if_pos henv]
  rw [hst] at h
  simp only [Except.ok.injEq, Prod.mk.injEq] at h
  obtain ⟨h2a, h2b⟩ := h
  have hderef : m2.deref ref = { m.deref ref with
      state := .error,
      errorMessage := some failStartMsg } := by
    rw [← h2a, Mgr.setRec_setRec, Mgr.deref_setRec_self _ _ _ href]
  refine ⟨alookup_mem hget2, ?_, ?_, ?_⟩
  · rw [← h2a, Mgr.streams_setRec, Mgr.streams_setRec]
    exact hget2
  · rw [hderef]
  · intro hne hcontra
    have hstate := congrArg StreamInfo.state hcontra
    rw [hderef] at hstate
    exact hne hstate.symm

/-- Witness for C9 (amended): the aliasing consequences evaluated on a
    concrete registry whose single record suffers a failed restart. -/
theorem c9_witness :
    (txt "noise_white", 0) ∈ c9m.getStreams
    ∧ alookup (txt "noise_white") c9m2.streams = some 0
    ∧ (c9m2.deref 0).state = .error
    ∧ ((c9m.deref 0).state ≠ .error → c9m2.deref 0 ≠ c9m.deref 0) :=
  c9_read_ops_aliasing c9m (txt "noise_white") 0
    { ffmpegInPath := false, outcome := .ok 0 } 0 c9m2
    (errRes (txt "Failed to start stream"))
    (by decide) rfl rfl rfl rfl

/-! ### C6: the monitor restart policy -/

theorem startOn_ok (m : Mgr) (ref : Nat) (id : PyStr) (env : SpawnEnv) (now : Nat)
    (hne : env.outcome ≠ .osError) :
    ∃ p, m.startOn ref id env now = .ok p := by
  simp only [Mgr.startOn]
  split
  · exact ⟨_, rfl⟩
  · obtain ⟨⟨r2, b⟩, hp⟩ := Runner.start_ok (r := (m.deref ref).runner) hne
    cases b
    · rw [hp]
      exact ⟨_, rfl⟩
    · rw [hp]
      exact ⟨_, rfl⟩

theorem startStream_ok (m : Mgr) (id : PyStr) (env : SpawnEnv) (now : Nat)
    (hne : env.outcome ≠ .osError) :
    ∃ p, m.startStream id env now = .ok p := by
  simp only [Mgr.startStream]
  split
  · exact startOn_ok _ _ _ _ _ hne
  · split
    · exact ⟨_, rfl⟩
    · split
      · exact startOn_ok _ _ _ _ _ hne
      · exact ⟨_, rfl⟩

/-- The registry calls the monitor issues for one health report. -/
def restartActions (h : HealthReport) : List MonAction :=
  if restartCond h then [.stopCall h.streamId, .startCall h.streamId] else []

theorem monitorGo_acts {envOf : PyStr → SpawnEnv} {now : Nat}
    (hne : ∀ i, (envOf i).outcome ≠ .osError) :
    ∀ (reports : List HealthReport) (m : Mgr) (acc : List MonAction),
      ∃ m2, monitorGo envOf now reports m acc
        = .ok (m2, acc ++ reports.flatMap restartActions) := by
  intro reports
  induction reports with
  | nil =>
    intro m acc
    exact ⟨m, by simp [monitorGo]⟩
  | cons h rest ih =>
    intro m acc
    by_cases hc : restartCond h
    · obtain ⟨⟨m2, r2⟩, hs⟩ := startStream_ok (m.stopStream h.streamId).1 h.streamId
        (envOf h.streamId) now (hne h.streamId)
      obtain ⟨m3, hrec⟩ := ih m2 (acc ++ [.stopCall h.streamId, .startCall h.streamId])
      refine ⟨m3, ?_⟩
      simp only [monitorGo, hc, if_true, hs, hrec, restartActions, List.flatMap_cons]
      simp [hc]
    · obtain ⟨m2, hrec⟩ := ih m acc
      refine ⟨m2, ?_⟩
      simp only [monitorGo, hc, if_false, hrec, restartActions, List.flatMap_cons]
      simp [hc, restartActions]

theorem restartActions_not_mentioned (id : PyStr) :
    ∀ (reports : List HealthReport),
      (∀ h ∈ reports, h.streamId = id → restartCond h = false) →
      (MonAction.stopCall id) ∉ reports.flatMap restartActions ∧
      (MonAction.startCall id) ∉ reports.flatMap restartActions := by
  intro reports
  induction reports with
  | nil =>
    intro _
    simp
  | cons h rest ih =>
    intro hall
    have hrest := ih (fun h2 hh2 => hall h2 (List.mem_cons_of_mem _ hh2))
    rw [List.flatMap_cons]
    by_cases hc : restartCond h = true
    · have hid : h.streamId ≠ id := by
        intro he
        rw [hall h (List.mem_cons_self _ _) he] at hc
        exact absurd hc (by simp)
      constructor
      · intro hmem
        rcases List.mem_append.mp hmem with hm | hm
        · simp only [restartActions, hc, if_true, List.mem_cons, List.not_mem_nil,
            or_false, MonAction.stopCall.injEq, reduceCtorEq] at hm
          exact hid hm.symm
        · exact hrest.1 hm
      · intro hmem
        rcases List.mem_append.mp hmem with hm | hm
        · simp only [restartActions, hc, if_true, List.mem_cons, List.not_mem_nil,
            or_false, MonAction.startCall.injEq, reduceCtorEq, false_or] at hm
          exact hid hm.symm
        · exact hrest.2 hm
    · constructor
      · intro hmem
        rcases List.mem_append.mp hmem with hm | hm
        · simp only [restartActions, hc, if_false] at hm
          cases hm
        · exact hrest.1 hm
      · intro hmem
        rcases List.mem_append.mp hmem with hm | hm
        · simp only [restartActions, hc, if_false] at hm
          cases hm
        · exact hrest.2 hm

theorem restartActions_exact (id : PyStr) :
    ∀ (reports : List HealthReport),
      (reports.map HealthReport.streamId).Nodup →
      (∃ h ∈ reports, h.streamId = id ∧ restartCond h = true) →
      (reports.flatMap restartActions).count (.stopCall id) = 1 ∧
      (reports.flatMap restartActions).count (.startCall id) = 1 ∧
      ∃ l1 l2, reports.flatMap restartActions
        = l1 ++ .stopCall id :: .startCall id :: l2 := by
  intro reports
  induction reports with
  | nil =>
    rintro _ ⟨h, hmem, _⟩
    cases hmem
  | cons h0 rest ih =>
    intro hnd hex
    rw [List.map_cons, List.nodup_cons] at hnd
    obtain ⟨hnotin, hndrest⟩ := hnd
    rw [List.flatMap_cons]
    rcases hex with ⟨h, hmem, hid, hcond⟩
    rcases List.mem_cons.mp hmem with rfl | hmemrest
    · have hrest0 : (MonAction.stopCall id) ∉ rest.flatMap restartActions ∧
          (MonAction.startCall id) ∉ rest.flatMap restartActions := by
        refine restartActions_not_mentioned id rest ?_
        intro h2 hh2 hid2
        have hin : id ∈ rest.map HealthReport.streamId := by
          rw [← hid2]
          exact List.mem_map_of_mem _ hh2
        rw [hid] at hnotin
        exact absurd hin hnotin
      simp only [restartActions, hcond, if_true, hid]
      refine ⟨?_, ?_, [], rest.flatMap restartActions, by simp⟩
      · rw [List.count_append, List.count_eq_zero.mpr hrest0.1]
        simp [List.count_cons]
      · rw [List.count_append, List.count_eq_zero.mpr hrest0.2]
        simp [List.count_cons]
    · have hid0 : h0.streamId ≠ id := by
        intro he
        apply hnotin
        rw [he, ← hid]
        exact List.mem_map_of_mem _ hmemrest
      obtain ⟨hcnt1, hcnt2, l1, l2, hdec⟩ := ih hndrest ⟨h, hmemrest, hid, hcond⟩
      have hnm : (MonAction.stopCall id) ∉ restartActions h0 ∧
          (MonAction.startCall id) ∉ restartActions h0 := by
        by_cases hc0 : restartCond h0 = true
        · constructor
          · simp only [restartActions, hc0, if_true, List.mem_cons, List.not_mem_nil,
              or_false, MonAction.stopCall.injEq, reduceCtorEq]
            exact fun he => hid0 he.symm
          · simp only [restartActions, hc0, if_true, List.mem_cons, List.not_mem_nil,
              or_false, MonAction.startCall.injEq, reduceCtorEq, false_or]
            exact fun he => hid0 he.symm
        · simp [restartActions, hc0]
      refine ⟨?_, ?_, restartActions h0 ++ l1, l2, ?_⟩
      · rw [List.count_append, hcnt1, List.count_eq_zero.mpr hnm.1]
      · rw [List.count_append, hcnt2, List.count_eq_zero.mpr hnm.2]
      · rw [hdec, List.append_assoc]

/-- C6: in one evaluation cycle the monitor issues, through the public
    registry operations, exactly one stop immediately followed by one
    start for each stream whose health report is unhealthy with its
    process live, and no call at all for any other stream. -/
theorem c6_monitor_restart_policy (m : Mgr) (fs : FsView)
    (envOf : PyStr → SpawnEnv) (now : Nat)
    (hnd : (((m.healthCheckAll fs).streams).map HealthReport.streamId).Nodup)
    (hne : ∀ i, (envOf i).outcome ≠ .osError) :
    ∃ m2 acts, monitorCycle m fs envOf now = .ok (m2, acts) ∧
      ∀ id : PyStr,
        ((∃ h ∈ (m.healthCheckAll fs).streams, h.streamId = id ∧ restartCond h = true) →
          acts.count (.stopCall id) = 1 ∧ acts.count (.startCall id) = 1 ∧
          ∃ l1 l2, acts = l1 ++ .stopCall id :: .startCall id :: l2)
        ∧ ((∀ h ∈ (m.healthCheckAll fs).streams, h.streamId = id → restartCond h = false) →
          (MonAction.stopCall id) ∉ acts ∧ (MonAction.startCall id) ∉ acts) := by
  obtain ⟨m2, hact⟩ := monitorGo_acts hne (m.healthCheckAll fs).streams m []
  refine ⟨m2, (m.healthCheckAll fs).streams.flatMap restartActions, by simpa [monitorCycle] using hact, ?_⟩
  intro id
  exact ⟨restartActions_exact id _ hnd, restartActions_not_mentioned id _⟩

def c6m0 : Mgr := Mgr.init (txt "/h") [txt "white", txt "pink"]

def c6res : Except Unit (Mgr × StartSummary) :=
  c6m0.startAllStreams (fun _ => ⟨true, .ok 42⟩) 5

def c6m : Mgr := match c6res with | .ok (m, _) => m | .error _ => c6m0

def c6fs : FsView :=
  { manifest := fun p =>
      if p = txt "/h/noise_white/stream.m3u8" then some (some 12) else some (some 0),
    now := 15 }

/-- Witness for C6: two live streams, the white manifest fresh (age 3) and
    the pink one stale (age 15); the cycle touches exactly the pink
    stream with one stop followed by one start. -/
theorem c6_witness :
    ∃ m2 acts, monitorCycle c6m c6fs (fun _ => ⟨true, .ok 42⟩) 30 = .ok (m2, acts) ∧
      ∀ id : PyStr,
        ((∃ h ∈ (c6m.healthCheckAll c6fs).streams, h.streamId = id ∧ restartCond h = true) →
          acts.count (.stopCall id) = 1 ∧ acts.count (.startCall id) = 1 ∧
          ∃ l1 l2, acts = l1 ++ .stopCall id :: .startCall id :: l2)
        ∧ ((∀ h ∈ (c6m.healthCheckAll c6fs).streams, h.streamId = id → restartCond h = false) →
          (MonAction.stopCall id) ∉ acts ∧ (MonAction.startCall id) ∉ acts) :=
  c6_monitor_restart_policy c6m c6fs (fun _ => ⟨true, .ok 42⟩) 30 (by decide)
    (fun _ => by simp)

/-! ### C3: start_all behaviour -/

/-- The condition start_all checks for one configured noise type: a record
    exists and its runner is live. -/
def willLive (m : Mgr) (noise : PyStr) : Bool :=
  match alookup (mkStreamId noise) m.streams with
  | some ref => (m.deref ref).runner.isRunning
  | none => false

/-- Whether one spawn attempt in this environment succeeds. -/
def spawnOkE (env : SpawnEnv) : Bool :=
  env.ffmpegInPath &&
    match env.outcome with
    | .ok _ => true
    | _ => false

def entryAlready (n : PyStr) : StartEntry :=
  { streamId := mkStreamId n, status := txt "already_running", noise := n,
    streamUrl := none, error := none }

def entryStarted (n : PyStr) : StartEntry :=
  { streamId := mkStreamId n, status := txt "started", noise := n,
    streamUrl := some (streamUrlOf (mkStreamId n)), error := none }

def entryFailed (n : PyStr) : StartEntry :=
  { streamId := mkStreamId n, status := txt "failed", noise := n,
    streamUrl := none, error := some failStartMsg }

theorem mkStreamId_inj {a b : PyStr} (h : mkStreamId a = mkStreamId b) : a = b := by
  unfold mkStreamId at h
  exact List.append_cancel_left h

theorem Mgr.streamsOf_update (m : Mgr) (st : List (PyStr × Nat)) :
    ({ m with streams := st } : Mgr).streams = st := rfl

theorem Mgr.deref_streams_irrel (m : Mgr) (st : List (PyStr × Nat)) (ref : Nat) :
    ({ m with streams := st } : Mgr).deref ref = m.deref ref := rfl

theorem Mgr.heapLength_streams_irrel (m : Mgr) (st : List (PyStr × Nat)) :
    ({ m with streams := st } : Mgr).heap.length = m.heap.length := rfl

theorem create_streams (m : Mgr) (noise : PyStr) :
    (m.createStreamForNoise noise).1.streams = m.streams := rfl

theorem create_heapLength (m : Mgr) (noise : PyStr) :
    (m.createStreamForNoise noise).1.heap.length = m.heap.length + 1 := by
  unfold Mgr.createStreamForNoise
  exact Mgr.alloc_heapLength _ _

theorem create_ref (m : Mgr) (noise : PyStr) :
    (m.createStreamForNoise noise).2 = m.heap.length := rfl

theorem create_deref_lt (m : Mgr) (noise : PyStr) (ref : Nat) (h : ref < m.heap.length) :
    (m.createStreamForNoise noise).1.deref ref = m.deref ref := by
  unfold Mgr.createStreamForNoise
  exact Mgr.deref_alloc_lt _ _ _ h

theorem start_spawnOkE {r : Runner} {env : SpawnEnv} {r2 : Runner} {b : Bool}
    (hrun : r.isRunning = false) (h : r.start env = .ok (r2, b)) : b = spawnOkE env := by
  unfold Runner.start at h
  rw [if_neg (by simp [hrun])] at h
  unfold spawnOkE
  by_cases hff : env.ffmpegInPath = false
  · rw [if_pos hff] at h
    simp_all
  · rw [if_neg hff] at h
    have hfft : env.ffmpegInPath = true := by
      revert hff
      cases env.ffmpegInPath <;> simp
    cases ho : env.outcome <;> rw [ho] at h <;> simp_all [hfft]

theorem step_streams (m : Mgr) (noise : PyStr) (sF : StreamInfo) (id2 : PyStr) :
    alookup id2 (({ ((m.createStreamForNoise noise).1.setRec (m.createStreamForNoise noise).2 sF) with
        streams := ainsert (mkStreamId noise) (m.createStreamForNoise noise).2
          ((m.createStreamForNoise noise).1.setRec (m.createStreamForNoise noise).2 sF).streams } : Mgr).streams)
      = alookup id2 (ainsert (mkStreamId noise) m.heap.length m.streams) := by
  rw [Mgr.streamsOf_update, Mgr.streams_setRec, create_streams, create_ref]

theorem step_deref_lt2 (m : Mgr) (noise : PyStr) (sF : StreamInfo) (ref2 : Nat)
    (h : ref2 < m.heap.length) :
    ({ ((m.createStreamForNoise noise).1.setRec (m.createStreamForNoise noise).2 sF) with
        streams := ainsert (mkStreamId noise) (m.createStreamForNoise noise).2
          ((m.createStreamForNoise noise).1.setRec (m.createStreamForNoise noise).2 sF).streams } : Mgr).deref ref2 = m.deref ref2 := by
  rw [Mgr.deref_streams_irrel]
  rw [Mgr.deref_setRec_ne _ _ _ _ (by rw [create_ref]; exact Nat.ne_of_lt h)]
  exact create_deref_lt _ _ _ h

theorem step_deref_self2 (m : Mgr) (noise : PyStr) (sF : StreamInfo) :
    ({ ((m.createStreamForNoise noise).1.setRec (m.createStreamForNoise noise).2 sF) with
        streams := ainsert (mkStreamId noise) (m.createStreamForNoise noise).2
          ((m.createStreamForNoise noise).1.setRec (m.createStreamForNoise noise).2 sF).streams } : Mgr).deref (m.createStreamForNoise noise).2 = sF := by
  rw [Mgr.deref_streams_irrel]
  exact Mgr.deref_setRec_self _ _ _ (create_ref_lt m noise)

theorem step_heapLength (m : Mgr) (noise : PyStr) (sF : StreamInfo) :
    ({ ((m.createStreamForNoise noise).1.setRec (m.createStreamForNoise noise).2 sF) with
        streams := ainsert (mkStreamId noise) (m.createStreamForNoise noise).2
          ((m.createStreamForNoise noise).1.setRec (m.createStreamForNoise noise).2 sF).streams } : Mgr).heap.length = m.heap.length + 1 := by
  rw [Mgr.heapLength_streams_irrel, Mgr.heapLength_setRec, create_heapLength]

theorem step_willLive (m : Mgr) (noise : PyStr) (sF : StreamInfo) (hm : MgrInv m)
    (n : PyStr) (hne : n ≠ noise) :
    willLive ({ ((m.createStreamForNoise noise).1.setRec (m.createStreamForNoise noise).2 sF) with
        streams := ainsert (mkStreamId noise) (m.createStreamForNoise noise).2
          ((m.createStreamForNoise noise).1.setRec (m.createStreamForNoise noise).2 sF).streams } : Mgr) n = willLive m n := by
  unfold willLive
  rw [step_streams]
  rw [alookup_ainsert_ne _ _ _ _ (fun he => hne (mkStreamId_inj he))]
  cases hl : alookup (mkStreamId n) m.streams with
  | none => rfl
  | some ref2 =>
    obtain ⟨hlt, _⟩ := hm _ _ hl
    simp only [step_deref_lt2 _ _ _ _ hlt]

theorem step_inv (m : Mgr) (noise : PyStr) (sF : StreamInfo)
    (hm : MgrInv m) (hok : RecordOk sF) : MgrInv ({ ((m.createStreamForNoise noise).1.setRec (m.createStreamForNoise noise).2 sF) with
        streams := ainsert (mkStreamId noise) (m.createStreamForNoise noise).2
          ((m.createStreamForNoise noise).1.setRec (m.createStreamForNoise noise).2 sF).streams } : Mgr) := by
  refine inv_insert _ _ ?_ ?_ ?_
  · refine inv_setRec _ _ ?_ hok
    unfold Mgr.createStreamForNoise
    exact inv_alloc _ hm
  · rw [Mgr.heapLength_setRec]
    exact create_ref_lt m noise
  · rw [Mgr.deref_setRec_self _ _ _ (create_ref_lt m noise)]
    exact hok


theorem countP_step (m : Mgr) (noise : PyStr) (sF : StreamInfo) (hm : MgrInv m)
    (rest : List PyStr) (hni : noise ∉ rest) (q : PyStr → Bool → Bool) :
    rest.countP (fun n => q n (willLive ({ ((m.createStreamForNoise noise).1.setRec (m.createStreamForNoise noise).2 sF) with
        streams := ainsert (mkStreamId noise) (m.createStreamForNoise noise).2
          ((m.createStreamForNoise noise).1.setRec (m.createStreamForNoise noise).2 sF).streams } : Mgr) n))
      = rest.countP (fun n => q n (willLive m n)) := by
  refine List.countP_congr ?_
  intro x hx
  rw [step_willLive m noise sF hm x (fun he => hni (he ▸ hx))]

theorem startAllGo_spec {envOf : PyStr → SpawnEnv} {now : Nat} :
    ∀ (ns : List PyStr) {m : Mgr} {acc : List StartEntry} {st fl : Nat}
      {m2 : Mgr} {es : List StartEntry} {st2 fl2 : Nat},
      MgrInv m → ns.Nodup →
      Mgr.startAllGo envOf now ns m acc st fl = .ok (m2, es, st2, fl2) →
      (st2 = st + ns.countP (fun n => willLive m n || spawnOkE (envOf n)))
      ∧ (fl2 = fl + ns.countP (fun n => !willLive m n && !spawnOkE (envOf n)))
      ∧ (∃ tail, es = acc ++ tail)
      ∧ (∀ id2 ref2, (∀ n ∈ ns, mkStreamId n ≠ id2) →
          alookup id2 m.streams = some ref2 → ref2 < m.heap.length →
          alookup id2 m2.streams = some ref2 ∧ m2.deref ref2 = m.deref ref2)
      ∧ m.heap.length ≤ m2.heap.length
      ∧ (∀ n ∈ ns, willLive m n = true →
          ∃ ref, alookup (mkStreamId n) m.streams = some ref ∧
            alookup (mkStreamId n) m2.streams = some ref ∧
            m2.deref ref = m.deref ref ∧ entryAlready n ∈ es)
      ∧ (∀ n ∈ ns, willLive m n = false →
          ∃ ref, alookup (mkStreamId n) m2.streams = some ref ∧
            m.heap.length ≤ ref ∧
            (spawnOkE (envOf n) = true → (m2.deref ref).state = .running ∧
              (m2.deref ref).runner.isRunning = true ∧ entryStarted n ∈ es) ∧
            (spawnOkE (envOf n) = false → (m2.deref ref).state = .error ∧
              (m2.deref ref).errorMessage = some failStartMsg ∧ entryFailed n ∈ es)) := by
  intro ns
  induction ns with
  | nil =>
    intro m acc st fl m2 es st2 fl2 hm hnd h
    simp only [Mgr.startAllGo, Except.ok.injEq, Prod.mk.injEq] at h
    obtain ⟨rfl, rfl, rfl, rfl⟩ := h
    refine ⟨by simp, by simp, ⟨[], by simp⟩, ?_, Nat.le_refl _, by simp, by simp⟩
    intro id2 ref2 _ hl _
    exact ⟨hl, rfl⟩
  | cons noise rest ih =>
    intro m acc st fl m2 es st2 fl2 hm hnd h
    rw [List.nodup_cons] at hnd
    obtain ⟨hnotin, hndrest⟩ := hnd
    simp only [Mgr.startAllGo] at h
    split at h
    · rename_i hlivecond
      have hwl : willLive m noise = true := hlivecond
      obtain ⟨hst2, hfl2, ⟨tail, htail⟩, hP, hL, hAl, hFr⟩ := ih hm hndrest h
      refine ⟨?_, ?_, ?_, ?_, hL, ?_, ?_⟩
      · rw [hst2, List.countP_cons]
        simp only [hwl, Bool.true_or, if_true]
        omega
      · rw [hfl2, List.countP_cons]
        simp [hwl]
      · exact ⟨[entryAlready noise] ++ tail, by rw [htail]; simp [entryAlready]⟩
      · intro id2 ref2 hna hl hlt
        exact hP id2 ref2 (fun n hn => hna n (List.mem_cons_of_mem _ hn)) hl hlt
      · intro n hn hwn
        rcases List.mem_cons.mp hn with rfl | hnr
        · unfold willLive at hwn
          cases hl : alookup (mkStreamId n) m.streams with
          | none =>
            rw [hl] at hwn
            exact absurd hwn (by simp)
          | some ref =>
            rw [hl] at hwn
            obtain ⟨hlt, _⟩ := hm _ _ hl
            obtain ⟨hl2, hd2⟩ := hP (mkStreamId n) ref
              (fun n2 hn2 he => absurd (mkStreamId_inj he ▸ hn2) hnotin) hl hlt
            exact ⟨ref, rfl, hl2, hd2, by rw [htail]; simp [entryAlready]⟩
        · obtain ⟨ref, h1, h2, h3, h4⟩ := hAl n hnr hwn
          exact ⟨ref, h1, h2, h3, h4⟩
      · intro n hn hwn
        rcases List.mem_cons.mp hn with rfl | hnr
        · rw [hwn] at hwl
          exact absurd hwl (by simp)
        · exact hFr n hnr hwn
    · rename_i hlivecond
      have hwl : willLive m noise = false := by
        cases hv : willLive m noise
        · rfl
        · exact absurd hv hlivecond
      split at h
      · exact absurd h (by simp)
      · rename_i r2 heq
        rw [Mgr.setRec_setRec] at h
        have hfresh : ((m.createStreamForNoise noise).1.deref
            (m.createStreamForNoise noise).2).runner.isRunning = false :=
          create_runner_not_running m noise
        have hspawn : spawnOkE (envOf noise) = true := (start_spawnOkE hfresh heq).symm
        have hr2 : r2.isRunning = true := (Runner.start_true heq).1
        have hm4 := step_inv m noise _ hm
          (recordOk_started ((m.createStreamForNoise noise).1.deref
            (m.createStreamForNoise noise).2) r2 now hr2)
        obtain ⟨hst2, hfl2, ⟨tail, htail⟩, hP4, hL4, hAl4, hFr4⟩ := ih hm4 hndrest h
        refine ⟨?_, ?_, ?_, ?_, ?_, ?_, ?_⟩
        · rw [hst2, List.countP_cons]
          rw [countP_step m noise _ hm rest hnotin (fun n b => b || spawnOkE (envOf n))]
          simp [hwl, hspawn]
          omega
        · rw [hfl2, List.countP_cons]
          rw [countP_step m noise _ hm rest hnotin (fun n b => !b && !spawnOkE (envOf n))]
          simp [hwl, hspawn]
        · exact ⟨[entryStarted noise] ++ tail, by rw [htail]; simp [entryStarted]⟩
        · intro id2 ref2 hna hl hlt
          have hne2 : id2 ≠ mkStreamId noise :=
            fun he => hna noise (List.mem_cons_self _ _) he.symm
          obtain ⟨ha, hb⟩ := hP4 id2 ref2 (fun n hn => hna n (List.mem_cons_of_mem _ hn))
            (by rw [step_streams, alookup_ainsert_ne _ _ _ _ hne2]; exact hl)
            (by rw [step_heapLength]; omega)
          refine ⟨ha, ?_⟩
          rw [hb, step_deref_lt2 _ _ _ _ hlt]
        · rw [step_heapLength] at hL4
          omega
        · intro n hn hwn
          rcases List.mem_cons.mp hn with rfl | hnr
          · rw [hwn] at hwl
            exact absurd hwl (by simp)
          · obtain ⟨ref, h1, h2, h3, h4⟩ := hAl4 n hnr (by rw [step_willLive m noise _ hm n (fun he => hnotin (he ▸ hnr))]; exact hwn)
            rw [step_streams, alookup_ainsert_ne _ _ _ _
              (fun he => hnotin (by rw [← mkStreamId_inj he]; exact hnr))] at h1
            obtain ⟨hlt, _⟩ := hm _ _ h1
            rw [step_deref_lt2 _ _ _ _ hlt] at h3
            exact ⟨ref, h1, h2, h3, h4⟩
        · intro n hn hwn
          rcases List.mem_cons.mp hn with rfl | hnr
          · obtain ⟨ha, hb⟩ := hP4 (mkStreamId n) (m.createStreamForNoise n).2
              (fun n2 hn2 he => absurd (mkStreamId_inj he ▸ hn2) hnotin)
              (by rw [step_streams, create_ref]; exact alookup_ainsert_self _ _ _)
              (by rw [step_heapLength, create_ref]; omega)
            rw [step_deref_self2] at hb
            refine ⟨(m.createStreamForNoise n).2, ha, by rw [create_ref], ?_, ?_⟩
            · intro _
              rw [hb]
              exact ⟨rfl, hr2, by rw [htail]; simp [entryStarted]⟩
            · intro hcon
              rw [hspawn] at hcon
              exact absurd hcon (by simp)
          · obtain ⟨ref, h1, h2, h3, h4⟩ := hFr4 n hnr (by rw [step_willLive m noise _ hm n (fun he => hnotin (he ▸ hnr))]; exact hwn)
            rw [step_heapLength] at h2
            exact ⟨ref, h1, by omega, h3, h4⟩
      · rename_i r2 heq
        rw [Mgr.setRec_setRec] at h
        have hfresh : ((m.createStreamForNoise noise).1.deref
            (m.createStreamForNoise noise).2).runner.isRunning = false :=
          create_runner_not_running m noise
        have hspawn : spawnOkE (envOf noise) = false := (start_spawnOkE hfresh heq).symm
        have hr2 : r2.isRunning = false := by
          rw [Runner.start_false heq]
          exact hfresh
        have hm4 := step_inv m noise _ hm
          (recordOk_failed ((m.createStreamForNoise noise).1.deref
            (m.createStreamForNoise noise).2) r2 hr2)
        obtain ⟨hst2, hfl2, ⟨tail, htail⟩, hP4, hL4, hAl4, hFr4⟩ := ih hm4 hndrest h
        refine ⟨?_, ?_, ?_, ?_, ?_, ?_, ?_⟩
        · rw [hst2, List.countP_cons]
          rw [countP_step m noise _ hm rest hnotin (fun n b => b || spawnOkE (envOf n))]
          simp [hwl, hspawn]
        · rw [hfl2, List.countP_cons]
          rw [countP_step m noise _ hm rest hnotin (fun n b => !b && !spawnOkE (envOf n))]
          simp [hwl, hspawn]
          omega
        · exact ⟨[entryFailed noise] ++ tail, by rw [htail]; simp [entryFailed]⟩
        · intro id2 ref2 hna hl hlt
          have hne2 : id2 ≠ mkStreamId noise :=
            fun he => hna noise (List.mem_cons_self _ _) he.symm
          obtain ⟨ha, hb⟩ := hP4 id2 ref2 (fun n hn => hna n (List.mem_cons_of_mem _ hn))
            (by rw [step_streams, alookup_ainsert_ne _ _ _ _ hne2]; exact hl)
            (by rw [step_heapLength]; omega)
          refine ⟨ha, ?_⟩
          rw [hb, step_deref_lt2 _ _ _ _ hlt]
        · rw [step_heapLength] at hL4
          omega
        · intro n hn hwn
          rcases List.mem_cons.mp hn with rfl | hnr
          · rw [hwn] at hwl
            exact absurd hwl (by simp)
          · obtain ⟨ref, h1, h2, h3, h4⟩ := hAl4 n hnr (by rw [step_willLive m noise _ hm n (fun he => hnotin (he ▸ hnr))]; exact hwn)
            rw [step_streams, alookup_ainsert_ne _ _ _ _
              (fun he => hnotin (by rw [← mkStreamId_inj he]; exact hnr))] at h1
            obtain ⟨hlt, _⟩ := hm _ _ h1
            rw [step_deref_lt2 _ _ _ _ hlt] at h3
            exact ⟨ref, h1, h2, h3, h4⟩
        · intro n hn hwn
          rcases List.mem_cons.mp hn with rfl | hnr
          · obtain ⟨ha, hb⟩ := hP4 (mkStreamId n) (m.createStreamForNoise n).2
              (fun n2 hn2 he => absurd (mkStreamId_inj he ▸ hn2) hnotin)
              (by rw [step_streams, create_ref]; exact alookup_ainsert_self _ _ _)
              (by rw [step_heapLength, create_ref]; omega)
            rw [step_deref_self2] at hb
            refine ⟨(m.createStreamForNoise n).2, ha, by rw [create_ref], ?_, ?_⟩
            · intro hcon
              rw [hspawn] at hcon
              exact absurd hcon (by simp)
            · intro _
              rw [hb]
              exact ⟨rfl, rfl, by rw [htail]; simp [entryFailed]⟩
          · obtain ⟨ref, h1, h2, h3, h4⟩ := hFr4 n hnr (by rw [step_willLive m noise _ hm n (fun he => hnotin (he ▸ hnr))]; exact hwn)
            rw [step_heapLength] at h2
            exact ⟨ref, h1, by omega, h3, h4⟩

/-- C3 (amended): start_all processes every configured noise type: a type
    whose record exists with a live runner is reported already_running and
    its record is untouched (no spawn); otherwise a FRESH record is
    allocated - replacing any existing non-live record rather than only
    creating when absent - a spawn is attempted, the new record ends in
    RUNNING on success or ERROR (with the fixed message) on failure, and
    the summary carries total, started (counting already-running and
    fresh spawns) and failed, plus per-stream detail entries. -/
theorem c3_start_all_behavior (m : Mgr) (envOf : PyStr → SpawnEnv) (now : Nat)
    (m2 : Mgr) (sum : StartSummary)
    (hm : MgrInv m) (hnd : m.noiseTypes.Nodup)
    (h : m.startAllStreams envOf now = .ok (m2, sum)) :
    sum.totalStreams = m.noiseTypes.length
    ∧ sum.started = m.noiseTypes.countP (fun n => willLive m n || spawnOkE (envOf n))
    ∧ sum.failed = m.noiseTypes.countP (fun n => !willLive m n && !spawnOkE (envOf n))
    ∧ (∀ n ∈ m.noiseTypes, willLive m n = true →
        ∃ ref, alookup (mkStreamId n) m.streams = some ref ∧
          alookup (mkStreamId n) m2.streams = some ref ∧
          m2.deref ref = m.deref ref ∧ entryAlready n ∈ sum.streams)
    ∧ (∀ n ∈ m.noiseTypes, willLive m n = false →
        ∃ ref, alookup (mkStreamId n) m2.streams = some ref ∧
          m.heap.length ≤ ref ∧
          (spawnOkE (envOf n) = true → (m2.deref ref).state = .running ∧
            (m2.deref ref).runner.isRunning = true ∧ entryStarted n ∈ sum.streams) ∧
          (spawnOkE (envOf n) = false → (m2.deref ref).state = .error ∧
            (m2.deref ref).errorMessage = some failStartMsg ∧
            entryFailed n ∈ sum.streams)) := by
  simp only [Mgr.startAllStreams] at h
  split at h
  · exact absurd h (by simp)
  · rename_i m3 entries st fl heq
    simp only [Except.ok.injEq, Prod.mk.injEq] at h
    obtain ⟨rfl, rfl⟩ := h
    obtain ⟨hst, hfl, _, _, _, hAl, hFr⟩ := startAllGo_spec m.noiseTypes hm hnd heq
    exact ⟨rfl, by simpa using hst, by simpa using hfl, hAl, hFr⟩

def c3m0 : Mgr := Mgr.init (txt "/h") [txt "white"]

def c3envFail : SpawnEnv := { ffmpegInPath := true, outcome := .fileNotFound }

def c3m1 : Mgr :=
  match c3m0.startAllStreams (fun _ => c3envFail) 0 with
  | .ok (m, _) => m
  | .error _ => c3m0

def c3m2 : Mgr :=
  match c3m1.startAllStreams (fun _ => c3envFail) 1 with
  | .ok (m, _) => m
  | .error _ => c3m0

/-- Counterexample for C3: after a failed start_all, the record for the
    white stream exists (heap reference 0) and is not live.  A second
    start_all does not reuse that existing record: it allocates a brand
    new record (heap reference 1, the heap now holding two objects), so
    the claim that a record is created ONLY if absent is false - the
    loop recreates the record whenever the runner is not live, even when
    a record is present. -/
theorem c3_counterexample :
    alookup (mkStreamId (txt "white")) c3m1.streams = some 0
    ∧ (c3m1.deref 0).runner.isRunning = false
    ∧ alookup (mkStreamId (txt "white")) c3m2.streams = some 1
    ∧ c3m2.heap.length = 2 := by decide

def c3w0 : Mgr := Mgr.init (txt "/h") [txt "white", txt "pink"]

def c3wEnv1 : PyStr → SpawnEnv := fun n =>
  if n = txt "white" then ⟨true, .ok 7⟩ else ⟨true, .fileNotFound⟩

def c3wres1 : Except Unit (Mgr × StartSummary) := c3w0.startAllStreams c3wEnv1 0

def c3wm : Mgr := match c3wres1 with | .ok (m, _) => m | .error _ => c3w0

def c3wsum1 : StartSummary :=
  match c3wres1 with
  | .ok (_, s) => s
  | .error _ =>
    { success := false, message := [], totalStreams := 0, started := 0, failed := 0,
      streams := [] }

def c3wEnv2 : PyStr → SpawnEnv := fun _ => ⟨true, .ok 9⟩

def c3wres2 : Except Unit (Mgr × StartSummary) := c3wm.startAllStreams c3wEnv2 1

def c3wm2 : Mgr := match c3wres2 with | .ok (m, _) => m | .error _ => c3w0

def c3wsum2 : StartSummary :=
  match c3wres2 with
  | .ok (_, s) => s
  | .error _ =>
    { success := false, message := [], totalStreams := 0, started := 0, failed := 0,
      streams := [] }

/-- Witness for C3 (amended): a second start_all over a registry where the
    white stream is live and the pink record exists but failed to spawn. -/
theorem c3_witness :
    c3wsum2.totalStreams = c3wm.noiseTypes.length
    ∧ c3wsum2.started = c3wm.noiseTypes.countP
        (fun n => willLive c3wm n || spawnOkE (c3wEnv2 n))
    ∧ c3wsum2.failed = c3wm.noiseTypes.countP
        (fun n => !willLive c3wm n && !spawnOkE (c3wEnv2 n))
    ∧ (∀ n ∈ c3wm.noiseTypes, willLive c3wm n = true →
        ∃ ref, alookup (mkStreamId n) c3wm.streams = some ref ∧
          alookup (mkStreamId n) c3wm2.streams = some ref ∧
          c3wm2.deref ref = c3wm.deref ref ∧ entryAlready n ∈ c3wsum2.streams)
    ∧ (∀ n ∈ c3wm.noiseTypes, willLive c3wm n = false →
        ∃ ref, alookup (mkStreamId n) c3wm2.streams = some ref ∧
          c3wm.heap.length ≤ ref ∧
          (spawnOkE (c3wEnv2 n) = true → (c3wm2.deref ref).state = .running ∧
            (c3wm2.deref ref).runner.isRunning = true ∧ entryStarted n ∈ c3wsum2.streams) ∧
          (spawnOkE (c3wEnv2 n) = false → (c3wm2.deref ref).state = .error ∧
            (c3wm2.deref ref).errorMessage = some failStartMsg ∧
            entryFailed n ∈ c3wsum2.streams)) :=
  c3_start_all_behavior c3wm c3wEnv2 1 c3wm2 c3wsum2
    (inv_startAllStreams (inv_init (txt "/h") [txt "white", txt "pink"])
      (rfl : c3w0.startAllStreams c3wEnv1 0 = .ok (c3wm, c3wsum1)))
    (by decide) rfl
